import Mathlib

/-!
Verification of the SpessaSynth worklet synthesis core.

This file shallowly embeds the voice manager of the AudioWorklet processor
(`worklet_processor.js`, here `src/unnamed/part_001`) and the voice builder
(`worklet_voice.js`, here `src/unnamed/part_000`) and proves properties of the
embedded operations.

Modelling conventions:
* JS numbers are rationals (`ℚ`), JS integers are `ℤ` or `ℕ`; `Int16Array`
  cells wrap through `toInt16` on writes, `~~` is `toInt32 ∘ jsTrunc`.
* Voice objects are values.  JS aliasing (the same object reachable from
  `voices` and `sustainedVoices`, or from a channel and the voice cache) is
  modelled by value identity; theorems that depend on identity assume the
  relevant lists contain pairwise distinct voices.
* Code of the repository that is not part of the given sources
  (`worklet_utilities/*`, `generators.js`, `worklet_system.js`,
  `synthetizer.js`) is modelled from the specification where a claim needs it
  and is marked `Modelled from the spec:` in its doc comment; the wavetable
  oscillator / filter / volume-envelope / panner pipeline is abstracted as an
  opaque-to-the-theorem `tail` function parameter, since no claim depends on
  its internals.
-/

/-- Truncation toward zero, the rounding used by the JS `~~` operator and by
the integer part of the JS `%` remainder. -/
def jsTrunc (x : ℚ) : ℤ := if x < 0 then ⌈x⌉ else ⌊x⌋

/-- The JS `%` remainder on numbers: `a - b * trunc (a / b)` (the result takes
the sign of the dividend). -/
def jsMod (a b : ℚ) : ℚ := a - b * (jsTrunc (a / b) : ℚ)

/-- Wrap an integer into the signed 32-bit range, as the JS `~~` operator does. -/
def toInt32 (n : ℤ) : ℤ := (n + 2 ^ 31) % 2 ^ 32 - 2 ^ 31

/-- Wrap an integer into the signed 16-bit range, as a write to an
`Int16Array` cell does. -/
def toInt16 (n : ℤ) : ℤ := (n + 2 ^ 15) % 2 ^ 16 - 2 ^ 15

/- Generator indices from `generators.js` (the standard SoundFont 2
generator enumeration used by the source). -/
namespace generatorTypes

def startAddrsOffset : ℕ := 0

def endAddrOffset : ℕ := 1

def startloopAddrsOffset : ℕ := 2

def endloopAddrsOffset : ℕ := 3

def startAddrsCoarseOffset : ℕ := 4

def modLfoToPitch : ℕ := 5

def vibLfoToPitch : ℕ := 6

def modEnvToPitch : ℕ := 7

def initialFilterFc : ℕ := 8

def initialFilterQ : ℕ := 9

def modLfoToFilterFc : ℕ := 10

def modEnvToFilterFc : ℕ := 11

def endAddrsCoarseOffset : ℕ := 12

def modLfoToVolume : ℕ := 13

def chorusEffectsSend : ℕ := 15

def reverbEffectsSend : ℕ := 16

def pan : ℕ := 17

def delayModLFO : ℕ := 21

def freqModLFO : ℕ := 22

def delayVibLFO : ℕ := 23

def freqVibLFO : ℕ := 24

def sustainVolEnv : ℕ := 37

def releaseVolEnv : ℕ := 38

def startloopAddrsCoarseOffset : ℕ := 45

def keyNum : ℕ := 46

def velocity : ℕ := 47

def initialAttenuation : ℕ := 48

def endloopAddrsCoarseOffset : ℕ := 50

def coarseTune : ℕ := 51

def fineTune : ℕ := 52

def sampleModes : ℕ := 54

def scaleTuning : ℕ := 56

def exclusiveClass : ℕ := 57

def overridingRootKey : ℕ := 58

end generatorTypes

/-- MIDI CC number of the sustain (hold) pedal. -/
def sustainPedal : ℕ := 64

/-- Modelled from the spec: `NON_CC_INDEX_OFFSET` from `worklet_system.js`
(not in src), the start of the non-CC tail of the 147-slot controller table. -/
def NON_CC_INDEX_OFFSET : ℕ := 128

/- Modelled from the spec: the `modulatorSources` indices from
`modulators.js` / `worklet_system.js` (not in src) that the processor reads
from the non-CC tail.  Only distinctness and being below the table size
matter for the claims. -/
namespace modulatorSources

def channelTuning : ℕ := 17

def channelTranspose : ℕ := 18

end modulatorSources

/-- The per-voice sample playback slice (`WorkletSample` typedef). `end` is a
Lean keyword, hence `end_`. -/
structure WorkletSample where
  sampleID : ℕ
  playbackStep : ℚ
  cursor : ℚ
  rootKey : ℤ
  loopStart : ℚ
  loopEnd : ℚ
  end_ : ℚ
  loopingMode : ℤ
deriving Repr, DecidableEq

/-- The per-voice lowpass filter state (`WorkletLowpassFilter` typedef). -/
structure WorkletLowpassFilter where
  a0 : ℚ
  a1 : ℚ
  a2 : ℚ
  a3 : ℚ
  a4 : ℚ
  x1 : ℚ
  x2 : ℚ
  y1 : ℚ
  y2 : ℚ
  reasonanceCb : ℚ
  reasonanceGain : ℚ
  cutoffCents : ℚ
  cutoffHz : ℚ
deriving Repr, DecidableEq

/-- A SoundFont modulator record (first-order data; the evaluation of its
transform is in `Modulator.evalWith`). -/
structure Modulator where
  source : ℕ
  amountSource : ℕ
  destinationGenerator : ℕ
  amount : ℤ
  transformType : ℕ
deriving Repr, DecidableEq

/-- GS NRPN channel vibrato parameters. -/
structure ChannelVibrato where
  delay : ℚ
  depth : ℚ
  rate : ℚ
deriving Repr, DecidableEq

/-- The central mutable voice entity (`WorkletVoice` typedef).
`releaseStartTime = none` models the initial `Infinity`. -/
structure WorkletVoice where
  sample : WorkletSample
  filter : WorkletLowpassFilter
  generators : List ℤ
  modulators : List Modulator
  modulatedGenerators : List ℤ
  finished : Bool
  isInRelease : Bool
  channelNumber : ℕ
  velocity : ℤ
  midiNote : ℤ
  targetKey : ℤ
  currentAttenuationDb : ℚ
  volumeEnvelopeState : ℕ
  currentModEnvValue : ℚ
  startTime : ℚ
  releaseStartTime : Option ℚ
  releaseStartModEnv : ℚ
  currentTuningCents : ℤ
  currentTuningCalculated : ℚ
deriving Repr, DecidableEq

/-- One processor channel (`WorkletProcessorChannel` typedef). -/
structure WorkletProcessorChannel where
  midiControllers : List ℤ
  voices : List WorkletVoice
  sustainedVoices : List WorkletVoice
  holdPedal : Bool
  channelVibrato : ChannelVibrato
  isMuted : Bool
deriving Repr, DecidableEq

/-- A channel with no voices and all-zero controllers, used as the `getD`
default when indexing the channel list (the code never indexes out of range). -/
def emptyWorkletProcessorChannel : WorkletProcessorChannel :=
  { midiControllers := List.replicate 147 0
    voices := []
    sustainedVoices := []
    holdPedal := false
    channelVibrato := { delay := 0, depth := 0, rate := 0 }
    isMuted := false }

/-- The ambient environment of the worklet: the audio clock, the sample rate,
and the external numeric helpers.  `pow2 x` stands for `Math.pow(2, x)`;
`timecentsToSeconds`, `absCentsToHz`, `getLFOValue` and `getModEnvValue` are
the (real-valued, hence abstracted) helpers from `worklet_utilities` (not in
src; their signatures follow the spec). -/
structure SynthEnv where
  sampleRate : ℚ
  currentTime : ℚ
  pow2 : ℚ → ℚ
  timecentsToSeconds : ℤ → ℚ
  absCentsToHz : ℤ → ℚ
  getLFOValue : ℚ → ℚ → ℚ → ℚ
  getModEnvValue : WorkletVoice → ℚ → ℚ

/-- The process-wide `workletDumpedSamplesList`: sample id to decoded PCM.
Assignment conses; `lookup` finds the newest binding, which is
observationally the JS array-index assignment. -/
def SampleStore : Type := List (ℕ × List ℚ)

/-- Store lookup (`workletDumpedSamplesList[id]`, `undefined` = `none`). -/
def SampleStore.lookup (s : SampleStore) (id : ℕ) : Option (List ℚ) :=
  List.lookup id s

/-- Store assignment (`workletDumpedSamplesList[id] = data`). -/
def SampleStore.set (s : SampleStore) (id : ℕ) (data : List ℚ) : SampleStore :=
  (id, data) :: s

/-- The processor state: channel array, tracked total voice count, and the
sequence of `port.postMessage` voice-count updates (the outbound events). -/
structure WorkletProcessorState where
  workletProcessorChannels : List WorkletProcessorChannel
  totalVoicesAmount : ℤ
  outbox : List (List ℕ)
deriving Repr, DecidableEq

/-- `MIN_NOTE_LENGTH` from `worklet_processor.js`: 0.07 s. -/
def MIN_NOTE_LENGTH : ℚ := 7 / 100

/-- Modelled from the spec: `VOICE_CAP` from `synthetizer.js` (not in src);
the spec names 400 as the default cap. -/
def VOICE_CAP : ℤ := 400

/-- Modelled from the spec: the value a modulator adds into its destination
slot, `transform(source(controllers), amountSource(controllers)) · amount`
(from `worklet_modulator.js`, not in src).  The transform curves are not
specified by the given sources; a linear transform on the raw controller
values is assumed.  No claim depends on this arithmetic, only on which voices
are recomputed and from which controller snapshot. -/
def Modulator.evalWith (m : Modulator) (controllers : List ℤ) : ℤ :=
  controllers.getD m.source 0 * controllers.getD m.amountSource 0 * m.amount

/-- Modelled from the spec: `computeModulators(voice, controllers)` from
`worklet_modulator.js` (not in src) rebuilds `modulatedGenerators` by starting
from `generators` and adding each modulator's contribution into its
destination slot. -/
def computeModulators (v : WorkletVoice) (controllers : List ℤ) : WorkletVoice :=
  { v with
    modulatedGenerators :=
      (List.range 60).map fun i =>
        toInt16 (v.generators.getD i 0 +
          ((v.modulators.filter fun m => m.destinationGenerator == i).map
            fun m => m.evalWith controllers).sum) }

/-- `releaseVoice(voice)`: start the release now, extending notes shorter
than `MIN_NOTE_LENGTH`. -/
def releaseVoice (env : SynthEnv) (v : WorkletVoice) : WorkletVoice :=
  let r := env.currentTime
  let r := if r - v.startTime < MIN_NOTE_LENGTH then v.startTime + MIN_NOTE_LENGTH else r
  { v with releaseStartTime := some r }

/-- The `noteOff` handler case.  With the hold pedal down the matching voice
object is pushed onto `sustainedVoices` (the code does not remove it from
`voices`); otherwise it is released. -/
def noteOffCase (env : SynthEnv) (ch : WorkletProcessorChannel) (note : ℤ) :
    WorkletProcessorChannel :=
  if ch.holdPedal then
    { ch with
      sustainedVoices := ch.sustainedVoices ++
        ch.voices.filter fun v => v.midiNote == note && !v.isInRelease }
  else
    { ch with
      voices := ch.voices.map fun v =>
        if v.midiNote == note && !v.isInRelease then releaseVoice env v else v }

/-- The `ccChange` handler case.  A sustain-pedal value below 64 releases
every sustained voice (mutation through the alias is modelled by value
identity in `voices`) and empties the sustained list; then the controller
cell is written and every channel voice gets its modulators recomputed
against the updated table. -/
def ccChangeCase (env : SynthEnv) (ch : WorkletProcessorChannel) (cc : ℕ) (val : ℤ) :
    WorkletProcessorChannel :=
  let ch :=
    if cc == sustainPedal then
      if val ≥ 64 then { ch with holdPedal := true }
      else
        { ch with
          holdPedal := false
          voices := ch.voices.map fun v =>
            if ch.sustainedVoices.contains v then releaseVoice env v else v
          sustainedVoices := [] }
    else ch
  let controllers := ch.midiControllers.set cc (toInt16 val)
  { ch with
    midiControllers := controllers
    voices := ch.voices.map fun v => computeModulators v controllers }

/-- The `sampleDump` handler case: publish the sample, then rehome every
matching voice of the message's channel: recompute `end`, move the cursor to
where the voice would be had it played since `startTime`, and either finish a
non-looping voice that ran past `end` or fold a looping cursor back through
the modulo expression. -/
def sampleDumpCase (env : SynthEnv) (store : SampleStore)
    (ch : WorkletProcessorChannel) (sampleID : ℕ) (sampleData : List ℚ) :
    SampleStore × WorkletProcessorChannel :=
  let store := store.set sampleID sampleData
  let voices := ch.voices.map fun v =>
    if v.sample.sampleID ≠ sampleID then v
    else
      let newEnd : ℚ := (sampleData.length : ℚ) - 1 +
        (v.generators.getD generatorTypes.endAddrOffset 0 : ℚ) +
        (v.generators.getD generatorTypes.endAddrsCoarseOffset 0 : ℚ) * 32768
      let cursor : ℚ := v.sample.playbackStep * env.sampleRate * (env.currentTime - v.startTime)
      if v.sample.loopingMode = 0 then
        if cursor ≥ newEnd then
          { v with sample := { v.sample with end_ := newEnd, cursor := cursor }, finished := true }
        else { v with sample := { v.sample with end_ := newEnd, cursor := cursor } }
      else
        if cursor > v.sample.loopEnd then
          let folded := jsMod cursor (v.sample.loopEnd - v.sample.loopStart) + v.sample.loopStart - 1
          { v with sample := { v.sample with end_ := newEnd, cursor := folded } }
        else { v with sample := { v.sample with end_ := newEnd, cursor := cursor } }
  (store, { ch with voices := voices })

/-- `updateVoicesAmount()`: post the per-channel voice counts outbound. -/
def updateVoicesAmount (st : WorkletProcessorState) : WorkletProcessorState :=
  { st with outbox := st.outbox ++ [st.workletProcessorChannels.map fun c => c.voices.length] }

/-- The sort predicate of `voiceKilling`'s comparator
`(v1, v2) => v1.velocity - v2.velocity`.  JS `Array.prototype.sort` is
stable, so its result coincides with a stable merge sort under this `le`. -/
def velocityLe (a b : WorkletVoice) : Bool := decide (a.velocity ≤ b.velocity)

/-- `voices.splice(voices.indexOf(voice), 1)`: remove the first occurrence;
when the voice is absent `indexOf` is `-1` and `splice(-1, 1)` removes the
last element. -/
def jsSpliceIndexOfRemove (l : List WorkletVoice) (v : WorkletVoice) : List WorkletVoice :=
  if v ∈ l then l.erase v else l.dropLast

/-- In-place update of one slot of a JS array (`arr[i].field = ...`). -/
def modifyAt (l : List α) (i : ℕ) (f : α → α) : List α :=
  match l, i with
  | [], _ => []
  | x :: xs, 0 => f x :: xs
  | x :: xs, i + 1 => x :: modifyAt xs i f

/-- `voiceKilling(amount)`: flatten all channels' voices, sort ascending by
velocity, clamp `amount` to the live count, remove that many lowest-velocity
voices each from its own channel's list, decrement the tracked total, and
post a voice-count update. -/
def voiceKilling (st : WorkletProcessorState) (amount : ℤ) : WorkletProcessorState :=
  let voicesOrderedByVelocity :=
    ((st.workletProcessorChannels.map fun c => c.voices).flatten).mergeSort velocityLe
  let k : ℕ := min amount.toNat voicesOrderedByVelocity.length
  let channels := (voicesOrderedByVelocity.take k).foldl
    (fun chs v => modifyAt chs v.channelNumber
      fun c => { c with voices := jsSpliceIndexOfRemove c.voices v }) st.workletProcessorChannels
  updateVoicesAmount
    { st with
      workletProcessorChannels := channels
      totalVoicesAmount := st.totalVoicesAmount - k }

/-- The exclusive-class cutoff applied to one matching live voice: release it,
force its raw `releaseVolEnv` generator to `-7200`, recompute its modulators
(the order of the three steps in the source loop body). -/
def exclusiveTransform (env : SynthEnv) (ctrl : List ℤ) (v : WorkletVoice) : WorkletVoice :=
  let v := releaseVoice env v
  let v := { v with generators := v.generators.set generatorTypes.releaseVolEnv (-7200) }
  computeModulators v ctrl

/-- The per-incoming-voice exclusive-class sweep of the `noteOn` case: every
live voice of the channel carrying the same nonzero `exclusiveClass` is
released, gets its raw `releaseVolEnv` generator forced to `-7200`, and has
its modulators recomputed. -/
def exclusiveSweep (env : SynthEnv) (ctrl : List ℤ) (exclusive : ℤ)
    (vs : List WorkletVoice) : List WorkletVoice :=
  if exclusive ≠ 0 then
    vs.map fun v =>
      if v.generators.getD generatorTypes.exclusiveClass 0 = exclusive then
        exclusiveTransform env ctrl v
      else v
  else vs

/-- The `noteOn` handler case: sweep exclusive classes for each incoming
voice, prepare the incoming voices (`computeModulators`, attenuation reset),
append them, bump the total, and either steal voices over the cap or post a
count update.  (The incoming-voice preparation is interleaved with the sweeps
in the source loop; the two commute since the sweeps read only the raw
`generators` of channel voices and of the incoming voice.) -/
def noteOnCase (env : SynthEnv) (st : WorkletProcessorState) (channel : ℕ)
    (data : List WorkletVoice) : WorkletProcessorState :=
  let ctrl := (st.workletProcessorChannels.getD channel emptyWorkletProcessorChannel).midiControllers
  let swept := data.foldl
    (fun vs voice =>
      exclusiveSweep env ctrl (voice.generators.getD generatorTypes.exclusiveClass 0) vs)
    (st.workletProcessorChannels.getD channel emptyWorkletProcessorChannel).voices
  let prepared := data.map fun voice =>
    { (computeModulators voice ctrl) with currentAttenuationDb := 100 }
  let channels := modifyAt st.workletProcessorChannels channel
    fun c => { c with voices := swept ++ prepared }
  let st := { st with
    workletProcessorChannels := channels
    totalVoicesAmount := st.totalVoicesAmount + data.length }
  if st.totalVoicesAmount > VOICE_CAP then voiceKilling st (st.totalVoicesAmount - VOICE_CAP)
  else updateVoicesAmount st

/-- The `killNotes` handler case. -/
def killNotesCase (st : WorkletProcessorState) (amount : ℤ) : WorkletProcessorState :=
  voiceKilling st amount

/-- Modelled from the spec: one slot of the generator limits table from
`generators.js` (not in src): a range and a default value (the sentinel
slots `overridingRootKey`, `keyNum` and `velocity` default to `-1`). -/
structure GenLimit where
  lo : ℤ
  hi : ℤ
  deflt : ℤ
deriving Repr, DecidableEq

/-- Clamp a combined generator value to its slot's range. -/
def clampGen (g : GenLimit) (x : ℤ) : ℤ := max g.lo (min g.hi x)

/-- Modelled from the spec: `addAndClampGenerator` from `generators.js` (not
in src): the instrument value (or the slot default) plus the preset value
(or 0), clamped to the slot's range; a slot set by neither layer keeps its
default. -/
def addAndClampGenerator (lim : ℕ → GenLimit) (presetGens instrumentGens : List (ℕ × ℤ))
    (i : ℕ) : ℤ :=
  match presetGens.lookup i, instrumentGens.lookup i with
  | none, none => (lim i).deflt
  | po, io => clampGen (lim i) (io.getD (lim i).deflt + po.getD 0)

/-- A concrete limits table usable for evaluation: full `Int16` range
everywhere, sentinel default `-1` on `overridingRootKey`, `keyNum` and
`velocity`, 0 elsewhere. -/
def limFull : ℕ → GenLimit := fun i =>
  if i = generatorTypes.overridingRootKey ∨ i = generatorTypes.keyNum ∨
      i = generatorTypes.velocity then
    { lo := -32768, hi := 32767, deflt := -1 }
  else { lo := -32768, hi := 32767, deflt := 0 }

/-- The immutable `Sample` record fields that `getWorkletVoices` reads
(collaborator contract of the SoundFont parser). -/
structure SampleRec where
  samplePitch : ℤ
  samplePitchCorrection : ℤ
  sampleRate : ℚ
  sampleLoopStartIndex : ℚ
  sampleLoopEndIndex : ℚ
  sampleDataLength : ℕ
  isCompressed : Bool
  isSampleLoaded : Bool
deriving Repr, DecidableEq

/-- One element yielded by `preset.getSamplesAndGenerators(midiNote,
velocity)`. -/
structure SampleAndGenerators where
  sampleID : ℕ
  sample : SampleRec
  presetGenerators : List (ℕ × ℤ)
  instrumentGenerators : List (ℕ × ℤ)
  modulators : List Modulator
deriving Repr, DecidableEq

/-- The initial filter state a built voice carries. -/
def initialFilter : WorkletLowpassFilter :=
  { a0 := 0, a1 := 0, a2 := 0, a3 := 0, a4 := 0
    x1 := 0, x2 := 0, y1 := 0, y2 := 0
    reasonanceCb := 0, reasonanceGain := 1
    cutoffCents := 13500, cutoffHz := 20000 }

/-- The body of the `map` in `getWorkletVoices` (after the dump check):
builds one voice from one zone and returns it together with the possibly
velocity-generator-overridden `velocity` variable, which the source mutates
in the enclosing scope.  `Math.floor(x * 0.4)` is modelled exactly on
rationals as `⌊x * 2/5⌋` (the double rounding of `0.4` cannot change the
floor for in-range generator values). -/
def buildWorkletVoice (lim : ℕ → GenLimit) (env : SynthEnv) (channel : ℕ)
    (midiNote vel : ℤ) (z : SampleAndGenerators) : WorkletVoice × ℤ :=
  let generators := (List.range 60).map fun i =>
    addAndClampGenerator lim z.presetGenerators z.instrumentGenerators i
  let generators := generators.set generatorTypes.initialAttenuation
    ⌊(generators.getD generatorTypes.initialAttenuation 0 : ℚ) * (2 / 5)⌋
  let rootKey := if generators.getD generatorTypes.overridingRootKey 0 > -1 then
    generators.getD generatorTypes.overridingRootKey 0 else z.sample.samplePitch
  let targetKey := if generators.getD generatorTypes.keyNum 0 > -1 then
    generators.getD generatorTypes.keyNum 0 else midiNote
  let loopStart : ℚ := z.sample.sampleLoopStartIndex / 2 +
    ((generators.getD generatorTypes.startloopAddrsOffset 0 : ℚ) +
      (generators.getD generatorTypes.startloopAddrsCoarseOffset 0 : ℚ) * 32768)
  let loopEnd : ℚ := z.sample.sampleLoopEndIndex / 2 +
    ((generators.getD generatorTypes.endloopAddrsOffset 0 : ℚ) +
      (generators.getD generatorTypes.endloopAddrsCoarseOffset 0 : ℚ) * 32768)
  let loopingMode : ℤ :=
    if loopEnd - loopStart < 1 then 0 else generators.getD generatorTypes.sampleModes 0
  let workletSample : WorkletSample :=
    { sampleID := z.sampleID
      playbackStep := z.sample.sampleRate / env.sampleRate *
        env.pow2 ((z.sample.samplePitchCorrection : ℚ) / 1200)
      cursor := (generators.getD generatorTypes.startAddrsOffset 0 : ℚ) +
        (generators.getD generatorTypes.startAddrsCoarseOffset 0 : ℚ) * 32768
      rootKey := rootKey
      loopStart := loopStart
      loopEnd := loopEnd
      end_ := (z.sample.sampleDataLength : ℚ) - 1 +
        ((generators.getD generatorTypes.endAddrOffset 0 : ℚ) +
          (generators.getD generatorTypes.endAddrsCoarseOffset 0 : ℚ) * 32768)
      loopingMode := loopingMode }
  let vel := if generators.getD generatorTypes.velocity 0 > -1 then
    generators.getD generatorTypes.velocity 0 else vel
  ({ filter := initialFilter
     generators := generators
     modulators := z.modulators
     modulatedGenerators := List.replicate 60 0
     sample := workletSample
     velocity := vel
     midiNote := midiNote
     channelNumber := channel
     startTime := env.currentTime
     targetKey := targetKey
     currentTuningCalculated := 1
     currentTuningCents := 0
     releaseStartTime := none
     finished := false
     isInRelease := false
     currentAttenuationDb := 100
     currentModEnvValue := 0
     releaseStartModEnv := 1
     volumeEnvelopeState := 0 }, vel)

/-- The per-channel voice cache `cachedVoices[midiNote][velocity]`. -/
def VoiceCache : Type := List ((ℤ × ℤ) × List WorkletVoice)

/-- Cache lookup. -/
def VoiceCache.lookup (c : VoiceCache) (midiNote vel : ℤ) : Option (List WorkletVoice) :=
  List.lookup (midiNote, vel) c

/-- `getWorkletVoices(channel, midiNote, velocity, preset, ...)`.  On a cache
hit the cached voices are returned with `startTime` refreshed.  Otherwise
each zone is built in order; a zone whose sample id is not yet in the global
dumped set dumps it (the id joins the set; the `postMessage` of the dump is
outside this model) and, if that sample is not yet loaded, forbids caching;
the `velocity` variable is threaded through the zones because a velocity
generator override mutates it; the finished group is cached under the
(possibly overridden) final velocity when caching is allowed.  Returns
(voices, dumped set, cache).  The fold step over the zones is
`getWorkletVoicesStep`: the accumulator is (voices so far, dumped set,
canCache flag, current velocity variable). -/
def getWorkletVoicesStep (lim : ℕ → GenLimit) (env : SynthEnv) (channel : ℕ) (midiNote : ℤ)
    (acc : List WorkletVoice × List ℕ × Bool × ℤ) (z : SampleAndGenerators) :
    List WorkletVoice × List ℕ × Bool × ℤ :=
  let canCache :=
    if z.sampleID ∈ acc.2.1 then acc.2.2.1
    else if z.sample.isSampleLoaded = false then false else acc.2.2.1
  let dumped := if z.sampleID ∈ acc.2.1 then acc.2.1 else z.sampleID :: acc.2.1
  let built := buildWorkletVoice lim env channel midiNote acc.2.2.2 z
  (acc.1 ++ [built.1], dumped, canCache, built.2)

def getWorkletVoices (lim : ℕ → GenLimit) (env : SynthEnv) (channel : ℕ)
    (midiNote velocity : ℤ) (zones : List SampleAndGenerators)
    (dumped : List ℕ) (cache : VoiceCache) :
    List WorkletVoice × List ℕ × VoiceCache :=
  match cache.lookup midiNote velocity with
  | some cached =>
    (cached.map fun v => { v with startTime := env.currentTime }, dumped, cache)
  | none =>
    let res := zones.foldl (getWorkletVoicesStep lim env channel midiNote)
      ([], dumped, true, velocity)
    let cache' : VoiceCache :=
      if res.2.2.1 then ((midiNote, res.2.2.2), res.1) :: cache else cache
    (res.1, res.2.1, cache')

/-- The values the tuning/filter half of `renderVoice` hands to the synthesis
pipeline (`getOscillatorData` → `applyLowpassFilter` → `applyVolumeEnvelope`
→ `panVoice`). -/
structure SynthesisArgs where
  lowpassCents : ℚ
  modLfoCentibels : ℚ
  pan : ℚ
  reverbSend : ℤ
  chorusSend : ℤ
deriving Repr, DecidableEq

/-- Read of a `modulatedGenerators` cell. -/
def mgen (v : WorkletVoice) (i : ℕ) : ℤ := v.modulatedGenerators.getD i 0

/-- `currentTime >= voice.releaseStartTime` with `releaseStartTime` possibly
`Infinity` (`none`). -/
def timeReached (t : ℚ) : Option ℚ → Bool
  | none => false
  | some r => decide (t ≥ r)

/-- The release check at the top of `renderVoice`: a voice not yet releasing
whose release start time has passed captures `releaseStartModEnv` and enters
release. -/
def releaseCheck (env : SynthEnv) (v : WorkletVoice) : WorkletVoice :=
  if !v.isInRelease && timeReached env.currentTime v.releaseStartTime then
    { v with releaseStartModEnv := v.currentModEnvValue, isInRelease := true }
  else v

/-- The vibrato-LFO block of `renderVoice` (applies only for positive depth
and truthy LFO value). -/
def vibratoCents (env : SynthEnv) (v : WorkletVoice) (cents : ℚ) : ℚ :=
  let vibratoDepth := mgen v generatorTypes.vibLfoToPitch
  if vibratoDepth > 0 then
    let vibStart := v.startTime + env.timecentsToSeconds (mgen v generatorTypes.delayVibLFO)
    let vibFreqHz := env.absCentsToHz (mgen v generatorTypes.freqVibLFO)
    let lfoVal := env.getLFOValue vibStart vibFreqHz env.currentTime
    if lfoVal ≠ 0 then cents + lfoVal * vibratoDepth else cents
  else cents

/-- The mod-LFO value `getLFOValue(startTime + timecentsToSeconds(delayModLFO),
absCentsToHz(freqModLFO), currentTime)` of a voice. -/
def modLfoValueOf (env : SynthEnv) (v : WorkletVoice) : ℚ :=
  env.getLFOValue (v.startTime + env.timecentsToSeconds (mgen v generatorTypes.delayModLFO))
    (env.absCentsToHz (mgen v generatorTypes.freqModLFO)) env.currentTime

/-- The mod-LFO block of `renderVoice`: when the SUM of the three depths is
positive, the LFO value scales into pitch cents, volume centibels, and
filter cents; otherwise all three pass through (volume contribution 0).
Returns (cents, modLfoCentibels, lowpassCents). -/
def modLfoBlock (env : SynthEnv) (v : WorkletVoice) (cents lowpassCents : ℚ) :
    ℚ × ℚ × ℚ :=
  let modPitchDepth := mgen v generatorTypes.modLfoToPitch
  let modVolDepth := mgen v generatorTypes.modLfoToVolume
  let modFilterDepth := mgen v generatorTypes.modLfoToFilterFc
  if modPitchDepth + modFilterDepth + modVolDepth > 0 then
    let modLfoValue := modLfoValueOf env v
    (cents + modLfoValue * modPitchDepth, modLfoValue * modVolDepth,
      lowpassCents + modLfoValue * modFilterDepth)
  else (cents, 0, lowpassCents)

/-- The channel-vibrato (GS NRPN) block of `renderVoice`. -/
def channelVibratoCents (env : SynthEnv) (cv : ChannelVibrato) (v : WorkletVoice)
    (cents : ℚ) : ℚ :=
  if cv.depth > 0 then
    let channelVibrato := env.getLFOValue (v.startTime + cv.delay) cv.rate env.currentTime
    if channelVibrato ≠ 0 then cents + channelVibrato * cv.depth else cents
  else cents

/-- `renderVoice(channel, voice, ...)` up to the synthesis pipeline: a voice
whose sample is not in the store is skipped before anything is touched; a
voice whose initial attenuation exceeds 2500 cB is skipped after the release
check (and finished when in release); otherwise tuning, mod-LFO, filter
cutoff and pan are computed, the tuning cache updated, and the arguments for
the synthesis pipeline returned. -/
def renderVoice (env : SynthEnv) (store : SampleStore) (ch : WorkletProcessorChannel)
    (voice : WorkletVoice) : WorkletVoice × Option SynthesisArgs :=
  match store.lookup voice.sample.sampleID with
  | none => (voice, none)
  | some _ =>
    let voice := releaseCheck env voice
    if mgen voice generatorTypes.initialAttenuation > 2500 then
      (if voice.isInRelease then { voice with finished := true } else voice, none)
    else
      let cents : ℚ := (mgen voice generatorTypes.fineTune : ℚ) +
        (ch.midiControllers.getD (NON_CC_INDEX_OFFSET + modulatorSources.channelTuning) 0 : ℚ) +
        (ch.midiControllers.getD (NON_CC_INDEX_OFFSET + modulatorSources.channelTranspose) 0 : ℚ)
      let semitones := mgen voice generatorTypes.coarseTune
      let cents := cents +
        ((voice.targetKey - voice.sample.rootKey : ℤ) : ℚ) * (mgen voice generatorTypes.scaleTuning : ℚ)
      let cents := vibratoCents env voice cents
      let lowpassCents : ℚ := (mgen voice generatorTypes.initialFilterFc : ℚ)
      let triple := modLfoBlock env voice cents lowpassCents
      let cents := triple.1
      let modLfoCentibels := triple.2.1
      let lowpassCents := triple.2.2
      let cents := channelVibratoCents env ch.channelVibrato voice cents
      let modEnv := env.getModEnvValue voice env.currentTime
      let lowpassCents := lowpassCents + modEnv * (mgen voice generatorTypes.modEnvToFilterFc : ℚ)
      let cents := cents + modEnv * (mgen voice generatorTypes.modEnvToPitch : ℚ)
      let centsTotal : ℤ := toInt32 (jsTrunc (cents + (semitones : ℚ) * 100))
      let voice :=
        if centsTotal ≠ voice.currentTuningCents then
          { voice with
            currentTuningCents := centsTotal
            currentTuningCalculated := env.pow2 ((centsTotal : ℚ) / 1200) }
        else voice
      let pan : ℚ := ((max (-500) (min 500 (mgen voice generatorTypes.pan)) : ℤ) + 500 : ℤ) / (1000 : ℚ)
      (voice,
        some { lowpassCents := lowpassCents
               modLfoCentibels := modLfoCentibels
               pan := pan
               reverbSend := mgen voice generatorTypes.reverbEffectsSend
               chorusSend := mgen voice generatorTypes.chorusEffectsSend })

/-- `renderVoice` composed with the synthesis pipeline, whose effect on the
voice (cursor advance, envelope state, filter state, `finished` at sample or
envelope end) is the abstract `tail` — those utilities are not part of the
given sources. -/
def renderVoiceFull (env : SynthEnv) (store : SampleStore) (ch : WorkletProcessorChannel)
    (tail : WorkletVoice → SynthesisArgs → WorkletVoice) (v : WorkletVoice) : WorkletVoice :=
  match renderVoice env store ch v with
  | (v', none) => v'
  | (v', some args) => tail v' args

/-- One `process` block: channels that are empty or muted are skipped
untouched (and not counted); each other channel renders all its voices and
keeps the unfinished ones, contributing its PRE-compaction voice count to
`totalCurrentVoices`; when that total differs from the tracked
`totalVoicesAmount`, the tracked value is replaced and a per-channel count
update is posted. -/
def process (env : SynthEnv) (store : SampleStore)
    (tail : WorkletVoice → SynthesisArgs → WorkletVoice)
    (st : WorkletProcessorState) : WorkletProcessorState :=
  let results := st.workletProcessorChannels.map fun channel =>
    if channel.voices.length < 1 || channel.isMuted then (channel, 0)
    else
      ({ channel with
        voices := (channel.voices.map (renderVoiceFull env store channel tail)).filter
          fun v => !v.finished }, channel.voices.length)
  let channels := results.map Prod.fst
  let totalCurrentVoices : ℕ := (results.map Prod.snd).sum
  if (totalCurrentVoices : ℤ) ≠ st.totalVoicesAmount then
    updateVoicesAmount
      { st with
        workletProcessorChannels := channels
        totalVoicesAmount := (totalCurrentVoices : ℤ) }
  else { st with workletProcessorChannels := channels }

/-- A concrete environment for evaluating the model on closed inputs: the
abstract numeric helpers are instantiated with simple total functions. -/
def envTest : SynthEnv :=
  { sampleRate := 10
    currentTime := 1
    pow2 := fun _ => 1
    timecentsToSeconds := fun _ => 0
    absCentsToHz := fun _ => 1
    getLFOValue := fun _ _ _ => 1
    getModEnvValue := fun _ _ => 0 }

/-- A concrete voice for closed evaluations. -/
def testVoice (chn : ℕ) (vel note : ℤ) : WorkletVoice :=
  { sample :=
      { sampleID := 1, playbackStep := 1, cursor := 0, rootKey := 60
        loopStart := 0, loopEnd := 5, end_ := 99, loopingMode := 0 }
    filter := initialFilter
    generators := List.replicate 60 0
    modulators := []
    modulatedGenerators := List.replicate 60 0
    finished := false
    isInRelease := false
    channelNumber := chn
    velocity := vel
    midiNote := note
    targetKey := 60
    currentAttenuationDb := 100
    volumeEnvelopeState := 0
    currentModEnvValue := 0
    startTime := 0
    releaseStartTime := none
    releaseStartModEnv := 1
    currentTuningCents := 0
    currentTuningCalculated := 1 }

/-- A concrete channel holding the given voices. -/
def testChannel (vs : List WorkletVoice) : WorkletProcessorChannel :=
  { emptyWorkletProcessorChannel with voices := vs }

/-- A concrete preset zone for closed evaluations. -/
def testZone (id : ℕ) (loaded : Bool) (ig : List (ℕ × ℤ)) : SampleAndGenerators :=
  { sampleID := id
    sample :=
      { samplePitch := 60, samplePitchCorrection := 0, sampleRate := 10
        sampleLoopStartIndex := 0, sampleLoopEndIndex := 200
        sampleDataLength := 100, isCompressed := false, isSampleLoaded := loaded }
    presetGenerators := []
    instrumentGenerators := ig
    modulators := [] }

/-- A concrete voice carrying exclusive class 2, for closed evaluations. -/
def exVoiceOld : WorkletVoice :=
  { testVoice 0 80 60 with generators := (List.replicate 60 0).set 57 2 }

/-- A concrete incoming voice with the same exclusive class 2. -/
def exVoiceNew : WorkletVoice :=
  { testVoice 0 90 61 with generators := (List.replicate 60 0).set 57 2 }

/-- A concrete one-channel processor state holding `exVoiceOld`. -/
def exState : WorkletProcessorState :=
  { workletProcessorChannels := [testChannel [exVoiceOld]]
    totalVoicesAmount := 0
    outbox := [] }

/-- The union of all channels' voice lists, the list `voiceKilling` flattens
and sorts. -/
def liveVoices (st : WorkletProcessorState) : List WorkletVoice :=
  (st.workletProcessorChannels.map fun c => c.voices).flatten

/-- A concrete two-channel state with three distinct voices (velocities 10, 5
on channel 0 and 7 on channel 1), for closed evaluation of voice stealing. -/
def killState : WorkletProcessorState :=
  { workletProcessorChannels :=
      [testChannel [testVoice 0 10 60, testVoice 0 5 61], testChannel [testVoice 1 7 62]]
    totalVoicesAmount := 3
    outbox := [] }

set_option maxHeartbeats 1000000

/-! Helper lemmas (shared; none of these is a claim theorem). -/

theorem jsMod_bounds (a b : ℚ) (ha : 0 ≤ a) (hb : 0 < b) :
    0 ≤ jsMod a b ∧ jsMod a b < b := by
  have hdiv : 0 ≤ a / b := div_nonneg ha hb.le
  have ht : jsTrunc (a / b) = ⌊a / b⌋ := by simp [jsTrunc, not_lt.mpr hdiv]
  have hba : b * (a / b) = a := by field_simp
  have h1 : b * (⌊a / b⌋ : ℚ) ≤ a := by
    have h := mul_le_mul_of_nonneg_left (Int.floor_le (a / b)) hb.le
    rwa [hba] at h
  have h2 : a < b * ((⌊a / b⌋ : ℚ) + 1) := by
    have h := mul_lt_mul_of_pos_left (Int.lt_floor_add_one (a / b)) hb
    rwa [hba] at h
  have h3 : b * ((⌊a / b⌋ : ℚ) + 1) = b * (⌊a / b⌋ : ℚ) + b := by ring
  rw [jsMod, ht]
  exact ⟨by linarith, by linarith⟩

theorem mgen_releaseCheck (env : SynthEnv) (v : WorkletVoice) (i : ℕ) :
    mgen (releaseCheck env v) i = mgen v i := by
  simp only [releaseCheck, mgen]
  split <;> rfl

theorem startTime_releaseCheck (env : SynthEnv) (v : WorkletVoice) :
    (releaseCheck env v).startTime = v.startTime := by
  simp only [releaseCheck]
  split <;> rfl

theorem modLfoValueOf_releaseCheck (env : SynthEnv) (v : WorkletVoice) :
    modLfoValueOf env (releaseCheck env v) = modLfoValueOf env v := by
  simp only [modLfoValueOf, mgen_releaseCheck, startTime_releaseCheck]

theorem mem_foldl_getWorkletVoicesStep (lim : ℕ → GenLimit) (env : SynthEnv) (channel : ℕ)
    (midiNote : ℤ) (P : WorkletVoice → Prop)
    (hP : ∀ (vel0 : ℤ) (z : SampleAndGenerators),
      P (buildWorkletVoice lim env channel midiNote vel0 z).1) :
    ∀ (zones : List SampleAndGenerators) (acc : List WorkletVoice × List ℕ × Bool × ℤ),
      (∀ v ∈ acc.1, P v) →
      ∀ v ∈ (zones.foldl (getWorkletVoicesStep lim env channel midiNote) acc).1, P v := by
  intro zones
  induction zones with
  | nil => intro acc hacc v hv; exact hacc v hv
  | cons z zs ih =>
    intro acc hacc v hv
    rw [List.foldl_cons] at hv
    refine ih _ ?_ v hv
    intro w hw
    simp only [getWorkletVoicesStep, List.mem_append, List.mem_singleton] at hw
    rcases hw with hw | hw
    · exact hacc w hw
    · subst hw
      exact hP _ _

/-- Claim C9 (confirmed): when the sample store has no entry for the voice's
`sampleID`, `renderVoice` is a complete no-op — the voice is returned with
every field unchanged, no synthesis arguments are produced (so nothing is
written to the main, reverb or chorus buffers), and the full render (with any
synthesis tail) also leaves the voice unchanged, so an unfinished voice stays
live for a later sample dump. -/
theorem renderVoice_missing_sample_noop (env : SynthEnv) (store : SampleStore)
    (ch : WorkletProcessorChannel) (tail : WorkletVoice → SynthesisArgs → WorkletVoice)
    (v : WorkletVoice) (h : store.lookup v.sample.sampleID = none) :
    renderVoice env store ch v = (v, none) ∧ renderVoiceFull env store ch tail v = v := by
  have h1 : renderVoice env store ch v = (v, none) := by simp only [renderVoice, h]
  exact ⟨h1, by simp only [renderVoiceFull, h1]⟩

/-- Witness for `renderVoice_missing_sample_noop` at a concrete input. -/
theorem renderVoice_missing_sample_noop_witness :
    SampleStore.lookup [] (testVoice 0 100 60).sample.sampleID = none ∧
      renderVoice envTest [] (testChannel []) (testVoice 0 100 60) = (testVoice 0 100 60, none) ∧
      renderVoiceFull envTest [] (testChannel []) (fun v _ => v) (testVoice 0 100 60) =
        testVoice 0 100 60 := by
  refine ⟨rfl, ?_⟩
  exact renderVoice_missing_sample_noop envTest [] (testChannel [])
    (fun v _ => v) (testVoice 0 100 60) rfl

/-- Claim C4 (corrected): for every voice built by `getWorkletVoices` (cache
miss), if `loopEnd - loopStart < 1` the voice's `loopingMode` is NONE (0);
otherwise it equals the combined `sampleModes` generator value ITSELF — the
source applies no `& 3` masking. -/
theorem getWorkletVoices_loopingMode (lim : ℕ → GenLimit) (env : SynthEnv) (channel : ℕ)
    (midiNote velocity : ℤ) (zones : List SampleAndGenerators) (dumped : List ℕ)
    (cache : VoiceCache) (hmiss : VoiceCache.lookup cache midiNote velocity = none) :
    ∀ v ∈ (getWorkletVoices lim env channel midiNote velocity zones dumped cache).1,
      v.sample.loopingMode =
        if v.sample.loopEnd - v.sample.loopStart < 1 then 0
        else v.generators.getD generatorTypes.sampleModes 0 := by
  intro v hv
  simp only [getWorkletVoices, hmiss] at hv
  exact mem_foldl_getWorkletVoicesStep lim env channel midiNote
    (fun w => w.sample.loopingMode =
      if w.sample.loopEnd - w.sample.loopStart < 1 then 0
      else w.generators.getD generatorTypes.sampleModes 0)
    (fun vel0 z => rfl) zones ([], dumped, true, velocity) (by simp) v hv

/-- Witness for `getWorkletVoices_loopingMode` at a concrete input. -/
theorem getWorkletVoices_loopingMode_witness :
    VoiceCache.lookup [] 60 100 = none ∧
      (∀ v ∈ (getWorkletVoices limFull envTest 0 60 100 [testZone 1 true []] [] []).1,
        v.sample.loopingMode =
          if v.sample.loopEnd - v.sample.loopStart < 1 then 0
          else v.generators.getD generatorTypes.sampleModes 0) := by
  exact ⟨rfl, getWorkletVoices_loopingMode limFull envTest 0 60 100 [testZone 1 true []] [] [] rfl⟩

/-- Counterexample to claim C4 as stated: with a zone whose combined
`sampleModes` generator is 4 and a non-degenerate loop (loop length 100 ≥ 1),
the built voice's `loopingMode` is 4, whereas the claimed `sampleModes & 3`
would be 0. -/
theorem loopingMode_no_mask_counterexample :
    ((getWorkletVoices limFull envTest 0 60 100
        [testZone 1 true [(generatorTypes.sampleModes, 4)]] [] []).1.map
      fun v => v.sample.loopingMode) = [4] ∧
    ((getWorkletVoices limFull envTest 0 60 100
        [testZone 1 true [(generatorTypes.sampleModes, 4)]] [] []).1.map
      fun v => v.sample.loopEnd - v.sample.loopStart) = [100] ∧
    ((getWorkletVoices limFull envTest 0 60 100
        [testZone 1 true [(generatorTypes.sampleModes, 4)]] [] []).1.map
      fun v => v.generators.getD generatorTypes.sampleModes 0) = [4] ∧
    ¬ ((100 : ℚ) < 1) ∧ Int.land 4 3 = 0 ∧ (4 : ℤ) ≠ Int.land 4 3 := by
  have hmap : List.map
      (fun i => addAndClampGenerator limFull
        (testZone 1 true [(generatorTypes.sampleModes, 4)]).presetGenerators
        (testZone 1 true [(generatorTypes.sampleModes, 4)]).instrumentGenerators i)
      (List.range 60) =
      [0,0,0,0,0,0,0,0,0,0, 0,0,0,0,0,0,0,0,0,0, 0,0,0,0,0,0,0,0,0,0,
       0,0,0,0,0,0,0,0,0,0, 0,0,0,0,0,0,-1,-1,0,0, 0,0,0,0,4,0,0,0,-1,0] := by decide
  refine ⟨?_, ?_, ?_, by norm_num, by decide, by decide⟩
  · simp only [getWorkletVoices, VoiceCache.lookup, List.lookup, buildWorkletVoice, List.foldl,
      getWorkletVoicesStep, List.map_cons, List.map_nil, List.nil_append, hmap]
    norm_num [testZone, List.getD, List.getElem?_cons, generatorTypes.initialAttenuation,
      generatorTypes.sampleModes, generatorTypes.endloopAddrsOffset,
      generatorTypes.endloopAddrsCoarseOffset, generatorTypes.startloopAddrsOffset,
      generatorTypes.startloopAddrsCoarseOffset]
  · simp only [getWorkletVoices, VoiceCache.lookup, List.lookup, buildWorkletVoice, List.foldl,
      getWorkletVoicesStep, List.map_cons, List.map_nil, List.nil_append, hmap]
    norm_num [testZone, List.getD, List.getElem?_cons, generatorTypes.initialAttenuation,
      generatorTypes.endloopAddrsOffset, generatorTypes.endloopAddrsCoarseOffset,
      generatorTypes.startloopAddrsOffset, generatorTypes.startloopAddrsCoarseOffset]
  · simp only [getWorkletVoices, VoiceCache.lookup, List.lookup, buildWorkletVoice, List.foldl,
      getWorkletVoicesStep, List.map_cons, List.map_nil, List.nil_append, hmap]
    norm_num [testZone, List.getD, List.getElem?_cons, generatorTypes.initialAttenuation,
      generatorTypes.sampleModes, generatorTypes.endloopAddrsOffset,
      generatorTypes.endloopAddrsCoarseOffset, generatorTypes.startloopAddrsOffset,
      generatorTypes.startloopAddrsCoarseOffset]

/-- Claim C10 (confirmed): a velocity-generator override in one zone mutates
the `velocity` variable shared by the whole note-on group.  With an incoming
velocity of 100, a first zone overriding the velocity generator to 80 and a
second zone that does not set it (its combined velocity generator stays at
the sentinel -1), the voice built for the second zone carries velocity 80,
not the incoming 100. -/
theorem velocity_override_shared_mutation :
    ((getWorkletVoices limFull envTest 0 60 100
        [testZone 1 true [(generatorTypes.velocity, 80)], testZone 2 true []] [] []).1.map
      fun v => v.velocity) = [80, 80] ∧
    addAndClampGenerator limFull (testZone 2 true []).presetGenerators
      (testZone 2 true []).instrumentGenerators generatorTypes.velocity = -1 ∧
    (80 : ℤ) ≠ 100 := by
  exact ⟨by decide, by decide, by decide⟩

/-- Counterexample to claim C2 as stated: after a sample dump, a live
(unfinished) looping voice with `loopStart = 0`, `loopEnd = 5`,
`playbackStep = 1`, `startTime = 0` rehomed at `currentTime = 1` with
`sampleRate = 10` gets cursor `10 % (5 - 0) + 0 - 1 = -1`, which violates
`0 ≤ cursor`. -/
theorem sampleDump_negative_cursor_counterexample :
    (((sampleDumpCase envTest []
        (testChannel [{ testVoice 0 100 60 with
          sample := { sampleID := 1, playbackStep := 1, cursor := 0, rootKey := 60,
                      loopStart := 0, loopEnd := 5, end_ := 99, loopingMode := 1 } }])
        1 (List.replicate 100 0)).2).voices.map fun v => (v.sample.cursor, v.finished)) =
      [(-1, false)] ∧
    ¬ (0 : ℚ) ≤ -1 := by
  constructor
  · simp only [sampleDumpCase, testChannel, testVoice, emptyWorkletProcessorChannel,
      List.map_cons, List.map_nil]
    norm_num [envTest, jsMod, jsTrunc, List.getD, List.getElem?_cons,
      generatorTypes.endAddrOffset, generatorTypes.endAddrsCoarseOffset]
  · norm_num

/-- Claim C2 (amended): immediately after `sampleDump(id, frames)`, every
voice of the message's channel matching `id` that is not marked finished has:
for a non-looping voice, `0 ≤ cursor < end`; for a looping voice,
`min 0 (loopStart - 1) ≤ cursor ≤ loopEnd` — the rehomed-overshoot formula
`cursor % (loopEnd - loopStart) + loopStart - 1` lands in
`[loopStart - 1, loopEnd - 1)`, which reaches `-1` when `loopStart = 0`, so
the claimed lower bound 0 (and the claimed upper bound `end`) must be
weakened as above.  Hypotheses: nonnegative sample rate and, for matching
voices, nonnegative playback step, a start time not in the future, and a
loop of length at least 1 when looping. -/
theorem sampleDump_cursor_invariant (env : SynthEnv) (store : SampleStore)
    (ch : WorkletProcessorChannel) (sampleID : ℕ) (sampleData : List ℚ)
    (hrate : 0 ≤ env.sampleRate)
    (hv : ∀ v ∈ ch.voices, v.sample.sampleID = sampleID →
      0 ≤ v.sample.playbackStep ∧ v.startTime ≤ env.currentTime ∧
        (v.sample.loopingMode ≠ 0 → v.sample.loopStart + 1 ≤ v.sample.loopEnd)) :
    ∀ w ∈ ((sampleDumpCase env store ch sampleID sampleData).2).voices,
      w.sample.sampleID = sampleID → w.finished = false →
        (w.sample.loopingMode = 0 → 0 ≤ w.sample.cursor ∧ w.sample.cursor < w.sample.end_) ∧
        (w.sample.loopingMode ≠ 0 →
          min 0 (w.sample.loopStart - 1) ≤ w.sample.cursor ∧
            w.sample.cursor ≤ w.sample.loopEnd) := by
  intro w hw hid hfin
  simp only [sampleDumpCase, List.mem_map] at hw
  obtain ⟨v, hvmem, rfl⟩ := hw
  by_cases hvid : v.sample.sampleID ≠ sampleID
  · simp only [if_pos hvid] at hid hfin ⊢
    exact absurd hid hvid
  · push_neg at hvid
    obtain ⟨hstep, htime, hloop⟩ := hv v hvmem hvid
    have hcur : 0 ≤ v.sample.playbackStep * env.sampleRate * (env.currentTime - v.startTime) :=
      mul_nonneg (mul_nonneg hstep hrate) (by linarith)
    simp only [if_neg (not_not.mpr hvid)] at hid hfin ⊢
    by_cases hmode : v.sample.loopingMode = 0
    · simp only [if_pos hmode] at hfin ⊢
      by_cases hend : v.sample.playbackStep * env.sampleRate * (env.currentTime - v.startTime) ≥
          (sampleData.length : ℚ) - 1 +
            (v.generators.getD generatorTypes.endAddrOffset 0 : ℚ) +
            (v.generators.getD generatorTypes.endAddrsCoarseOffset 0 : ℚ) * 32768
      · rw [if_pos hend] at hfin
        simp at hfin
      · rw [if_neg hend] at hfin ⊢
        refine ⟨fun _ => ⟨hcur, ?_⟩, fun hne => absurd hmode hne⟩
        simpa using not_le.mp hend
    · simp only [if_neg hmode] at hfin ⊢
      by_cases hgt : v.sample.playbackStep * env.sampleRate * (env.currentTime - v.startTime) >
          v.sample.loopEnd
      · rw [if_pos hgt] at hfin ⊢
        have hL : 0 < v.sample.loopEnd - v.sample.loopStart := by
          have := hloop hmode
          linarith
        obtain ⟨hm0, hm1⟩ := jsMod_bounds
          (v.sample.playbackStep * env.sampleRate * (env.currentTime - v.startTime))
          (v.sample.loopEnd - v.sample.loopStart) hcur hL
        refine ⟨fun h0 => absurd h0 hmode, fun _ => ⟨?_, ?_⟩⟩
        · have hmin : min 0 (v.sample.loopStart - 1) ≤ v.sample.loopStart - 1 :=
            min_le_right _ _
          simp only
          linarith
        · simp only
          linarith
      · rw [if_neg hgt] at hfin ⊢
        refine ⟨fun h0 => absurd h0 hmode, fun _ => ⟨?_, ?_⟩⟩
        · have hmin : min 0 (v.sample.loopStart - 1) ≤ (0 : ℚ) := min_le_left _ _
          simp only
          linarith
        · simp only
          exact le_of_not_lt hgt

/-- Witness for `sampleDump_cursor_invariant` at a concrete input (the same
state as the counterexample, whose rehomed cursor is `-1 = loopStart - 1`). -/
theorem sampleDump_cursor_invariant_witness :
    (0 ≤ envTest.sampleRate ∧
      (∀ v ∈ (testChannel [{ testVoice 0 100 60 with
          sample := { sampleID := 1, playbackStep := 1, cursor := 0, rootKey := 60,
                      loopStart := 0, loopEnd := 5, end_ := 99, loopingMode := 1 } }]).voices,
        v.sample.sampleID = 1 →
          0 ≤ v.sample.playbackStep ∧ v.startTime ≤ envTest.currentTime ∧
            (v.sample.loopingMode ≠ 0 → v.sample.loopStart + 1 ≤ v.sample.loopEnd))) ∧
    (∀ w ∈ ((sampleDumpCase envTest []
        (testChannel [{ testVoice 0 100 60 with
          sample := { sampleID := 1, playbackStep := 1, cursor := 0, rootKey := 60,
                      loopStart := 0, loopEnd := 5, end_ := 99, loopingMode := 1 } }])
        1 (List.replicate 100 0)).2).voices,
      w.sample.sampleID = 1 → w.finished = false →
        (w.sample.loopingMode = 0 → 0 ≤ w.sample.cursor ∧ w.sample.cursor < w.sample.end_) ∧
        (w.sample.loopingMode ≠ 0 →
          min 0 (w.sample.loopStart - 1) ≤ w.sample.cursor ∧
            w.sample.cursor ≤ w.sample.loopEnd)) := by
  have hhyp : 0 ≤ envTest.sampleRate ∧
      (∀ v ∈ (testChannel [{ testVoice 0 100 60 with
          sample := { sampleID := 1, playbackStep := 1, cursor := 0, rootKey := 60,
                      loopStart := 0, loopEnd := 5, end_ := 99, loopingMode := 1 } }]).voices,
        v.sample.sampleID = 1 →
          0 ≤ v.sample.playbackStep ∧ v.startTime ≤ envTest.currentTime ∧
            (v.sample.loopingMode ≠ 0 → v.sample.loopStart + 1 ≤ v.sample.loopEnd)) := by
    constructor
    · norm_num [envTest]
    · intro v hvmem
      simp only [testChannel, emptyWorkletProcessorChannel, List.mem_singleton] at hvmem
      subst hvmem
      intro _
      norm_num [testVoice, envTest]
  exact ⟨hhyp, sampleDump_cursor_invariant envTest []
    (testChannel [{ testVoice 0 100 60 with
      sample := { sampleID := 1, playbackStep := 1, cursor := 0, rootKey := 60,
                  loopStart := 0, loopEnd := 5, end_ := 99, loopingMode := 1 } }])
    1 (List.replicate 100 0) hhyp.1 hhyp.2⟩

/-- Claim C8 (amended): the mod LFO applies only when the SUM of the three
depths `modLfoToPitch + modLfoToFilterFc + modLfoToVolume` is positive (not
whenever one of them is nonzero).  In that case the LFO value computed from
`delayModLFO` and `freqModLFO` contributes `modLfoValue * modLfoToPitch`
cents to pitch, `modLfoValue * modLfoToVolume` centibels to volume and
`modLfoValue * modLfoToFilterFc` cents to the filter cutoff, and
`renderVoice` hands exactly the volume contribution to the synthesis
pipeline. -/
theorem modLfo_contributions (env : SynthEnv) (v : WorkletVoice) (cents lowpassCents : ℚ)
    (store : SampleStore) (ch : WorkletProcessorChannel) (d : List ℚ)
    (h : mgen v generatorTypes.modLfoToPitch + mgen v generatorTypes.modLfoToFilterFc +
      mgen v generatorTypes.modLfoToVolume > 0)
    (hs : store.lookup v.sample.sampleID = some d)
    (hatt : mgen v generatorTypes.initialAttenuation ≤ 2500) :
    modLfoBlock env v cents lowpassCents =
      (cents + modLfoValueOf env v * (mgen v generatorTypes.modLfoToPitch : ℚ),
       modLfoValueOf env v * (mgen v generatorTypes.modLfoToVolume : ℚ),
       lowpassCents + modLfoValueOf env v * (mgen v generatorTypes.modLfoToFilterFc : ℚ)) ∧
    (∃ vOut args, renderVoice env store ch v = (vOut, some args) ∧
      args.modLfoCentibels =
        modLfoValueOf env v * (mgen v generatorTypes.modLfoToVolume : ℚ)) := by
  have hblock : ∀ c l : ℚ, modLfoBlock env v c l =
      (c + modLfoValueOf env v * (mgen v generatorTypes.modLfoToPitch : ℚ),
       modLfoValueOf env v * (mgen v generatorTypes.modLfoToVolume : ℚ),
       l + modLfoValueOf env v * (mgen v generatorTypes.modLfoToFilterFc : ℚ)) := by
    intro c l
    simp only [modLfoBlock]
    rw [if_pos]
    exact_mod_cast h
  refine ⟨hblock cents lowpassCents, ?_⟩
  have hblockR : ∀ c l : ℚ, modLfoBlock env (releaseCheck env v) c l =
      (c + modLfoValueOf env v * (mgen v generatorTypes.modLfoToPitch : ℚ),
       modLfoValueOf env v * (mgen v generatorTypes.modLfoToVolume : ℚ),
       l + modLfoValueOf env v * (mgen v generatorTypes.modLfoToFilterFc : ℚ)) := by
    intro c l
    simp only [modLfoBlock, mgen_releaseCheck, modLfoValueOf_releaseCheck]
    rw [if_pos]
    exact_mod_cast h
  have hatt2 : ¬ (mgen (releaseCheck env v) generatorTypes.initialAttenuation > 2500) := by
    rw [mgen_releaseCheck]
    omega
  simp only [renderVoice, hs, if_neg hatt2, hblockR]
  exact ⟨_, _, rfl, rfl⟩

/-- Witness for `modLfo_contributions` at a concrete input. -/
theorem modLfo_contributions_witness :
    (mgen { testVoice 0 100 60 with
        modulatedGenerators := (List.replicate 60 0).set 5 3 } generatorTypes.modLfoToPitch +
      mgen { testVoice 0 100 60 with
        modulatedGenerators := (List.replicate 60 0).set 5 3 } generatorTypes.modLfoToFilterFc +
      mgen { testVoice 0 100 60 with
        modulatedGenerators := (List.replicate 60 0).set 5 3 } generatorTypes.modLfoToVolume > 0) ∧
    SampleStore.lookup [(1, [0])]
      ({ testVoice 0 100 60 with
        modulatedGenerators := (List.replicate 60 0).set 5 3 } : WorkletVoice).sample.sampleID =
      some [0] ∧
    (mgen { testVoice 0 100 60 with
        modulatedGenerators := (List.replicate 60 0).set 5 3 }
      generatorTypes.initialAttenuation ≤ 2500) ∧
    (modLfoBlock envTest { testVoice 0 100 60 with
        modulatedGenerators := (List.replicate 60 0).set 5 3 } 0 0 =
      (0 + modLfoValueOf envTest { testVoice 0 100 60 with
          modulatedGenerators := (List.replicate 60 0).set 5 3 } *
        (mgen { testVoice 0 100 60 with
            modulatedGenerators := (List.replicate 60 0).set 5 3 }
          generatorTypes.modLfoToPitch : ℚ),
       modLfoValueOf envTest { testVoice 0 100 60 with
          modulatedGenerators := (List.replicate 60 0).set 5 3 } *
        (mgen { testVoice 0 100 60 with
            modulatedGenerators := (List.replicate 60 0).set 5 3 }
          generatorTypes.modLfoToVolume : ℚ),
       0 + modLfoValueOf envTest { testVoice 0 100 60 with
          modulatedGenerators := (List.replicate 60 0).set 5 3 } *
        (mgen { testVoice 0 100 60 with
            modulatedGenerators := (List.replicate 60 0).set 5 3 }
          generatorTypes.modLfoToFilterFc : ℚ)) ∧
     ∃ vOut args,
       renderVoice envTest [(1, [0])] (testChannel []) { testVoice 0 100 60 with
          modulatedGenerators := (List.replicate 60 0).set 5 3 } = (vOut, some args) ∧
       args.modLfoCentibels =
         modLfoValueOf envTest { testVoice 0 100 60 with
            modulatedGenerators := (List.replicate 60 0).set 5 3 } *
          (mgen { testVoice 0 100 60 with
              modulatedGenerators := (List.replicate 60 0).set 5 3 }
            generatorTypes.modLfoToVolume : ℚ)) := by
  refine ⟨by decide, rfl, by decide, ?_⟩
  exact modLfo_contributions envTest
    { testVoice 0 100 60 with modulatedGenerators := (List.replicate 60 0).set 5 3 }
    0 0 [(1, [0])] (testChannel []) [0] (by decide) rfl (by decide)

/-- Counterexample to claim C8 as stated: a voice whose only nonzero depth is
`modLfoToVolume = -10` (so "at least one of the three is nonzero" holds) gets
NO mod-LFO contribution — the gate tests the sum `-10 > 0`, which fails — the
volume term stays 0 although the claimed contribution
`modLfoValue * modLfoToVolume` is `-10`. -/
theorem modLfo_gate_counterexample :
    mgen { testVoice 0 100 60 with
        modulatedGenerators := (List.replicate 60 0).set 13 (-10) }
      generatorTypes.modLfoToVolume = -10 ∧
    modLfoBlock envTest
      { testVoice 0 100 60 with modulatedGenerators := (List.replicate 60 0).set 13 (-10) }
      0 0 = (0, 0, 0) ∧
    modLfoValueOf envTest
        { testVoice 0 100 60 with
          modulatedGenerators := (List.replicate 60 0).set 13 (-10) } *
      (mgen { testVoice 0 100 60 with
          modulatedGenerators := (List.replicate 60 0).set 13 (-10) }
        generatorTypes.modLfoToVolume : ℚ) = -10 ∧
    (0 : ℚ) ≠ -10 := by
  refine ⟨by decide, ?_, ?_, by norm_num⟩
  · simp only [modLfoBlock]
    rw [if_neg (by decide)]
  · have hm : mgen { testVoice 0 100 60 with
        modulatedGenerators := (List.replicate 60 0).set 13 (-10) }
        generatorTypes.modLfoToVolume = -10 := by decide
    rw [hm]
    norm_num [modLfoValueOf, envTest]

theorem foldl_canCache_loaded (lim : ℕ → GenLimit) (env : SynthEnv) (channel : ℕ)
    (midiNote : ℤ) :
    ∀ (zones : List SampleAndGenerators) (acc : List WorkletVoice × List ℕ × Bool × ℤ),
      (∀ z ∈ zones, z.sample.isSampleLoaded = true) → acc.2.2.1 = true →
      (zones.foldl (getWorkletVoicesStep lim env channel midiNote) acc).2.2.1 = true := by
  intro zones
  induction zones with
  | nil => intro acc _ hacc; exact hacc
  | cons z zs ih =>
    intro acc hz hacc
    rw [List.foldl_cons]
    refine ih _ (fun w hw => hz w (List.mem_cons_of_mem _ hw)) ?_
    have hzl : z.sample.isSampleLoaded = true := hz z (List.mem_cons_self _ _)
    simp only [getWorkletVoicesStep, hzl]
    split
    · exact hacc
    · simp only [Bool.true_eq_false, if_false, hacc]

/-- Claim C6 (amended): on a cache miss, `getWorkletVoices` does store the
new voice group whenever every sample of the group is already loaded — but
loadedness is only checked for samples that are not yet in the global dumped
set, so a group whose sample was dumped earlier but is still loading is
cached anyway (see the counterexample); and on a cache hit the cached voices
are returned with only `startTime` refreshed, every other field and the
whole state unchanged. -/
theorem getWorkletVoices_cache_discipline (lim : ℕ → GenLimit) (env : SynthEnv) (channel : ℕ)
    (midiNote velocity : ℤ) (zones : List SampleAndGenerators) (dumped : List ℕ)
    (cacheA cacheB : VoiceCache) (cached : List WorkletVoice)
    (hmiss : VoiceCache.lookup cacheA midiNote velocity = none)
    (hload : ∀ z ∈ zones, z.sample.isSampleLoaded = true)
    (hhit : VoiceCache.lookup cacheB midiNote velocity = some cached) :
    (∃ w, (getWorkletVoices lim env channel midiNote velocity zones dumped cacheA).2.2 =
      ((midiNote, w), (getWorkletVoices lim env channel midiNote velocity zones dumped cacheA).1)
        :: cacheA) ∧
    getWorkletVoices lim env channel midiNote velocity zones dumped cacheB =
      (cached.map fun v => { v with startTime := env.currentTime }, dumped, cacheB) := by
  constructor
  · have hc : (zones.foldl (getWorkletVoicesStep lim env channel midiNote)
        ([], dumped, true, velocity)).2.2.1 = true :=
      foldl_canCache_loaded lim env channel midiNote zones ([], dumped, true, velocity) hload rfl
    simp only [getWorkletVoices, hmiss, hc, if_true]
    exact ⟨_, rfl⟩
  · simp only [getWorkletVoices, hhit]

/-- Witness for `getWorkletVoices_cache_discipline` at a concrete input. -/
theorem getWorkletVoices_cache_discipline_witness :
    (VoiceCache.lookup [] 60 100 = none ∧
      (∀ z ∈ [testZone 1 true []], z.sample.isSampleLoaded = true) ∧
      VoiceCache.lookup [((60, 100), [testVoice 0 100 60])] 60 100 =
        some [testVoice 0 100 60]) ∧
    (∃ w, (getWorkletVoices limFull envTest 0 60 100 [testZone 1 true []] []
        []).2.2 =
      ((60, w), (getWorkletVoices limFull envTest 0 60 100 [testZone 1 true []] [] []).1)
        :: ([] : VoiceCache)) ∧
    getWorkletVoices limFull envTest 0 60 100 [testZone 1 true []] []
        [((60, 100), [testVoice 0 100 60])] =
      ([testVoice 0 100 60].map fun v => { v with startTime := envTest.currentTime }, [],
        [((60, 100), [testVoice 0 100 60])]) := by
  refine ⟨⟨rfl, by decide, rfl⟩, ?_⟩
  exact getWorkletVoices_cache_discipline limFull envTest 0 60 100 [testZone 1 true []] []
    [] [((60, 100), [testVoice 0 100 60])] [testVoice 0 100 60] rfl (by decide) rfl

/-- Counterexample to claim C6 as stated: a group whose single sample is NOT
yet loaded (`isSampleLoaded = false`) but whose id 7 is already in the global
dumped set IS entered into the cache — the loadedness check is skipped for
already-dumped samples, contradicting "only if every sample referenced by the
group was already loaded at build time". -/
theorem cache_stores_unloaded_counterexample :
    (testZone 7 false []).sample.isSampleLoaded = false ∧
    (VoiceCache.lookup
      (getWorkletVoices limFull envTest 0 60 100 [testZone 7 false []] [7] []).2.2
      60 100).isSome = true := by
  exact ⟨rfl, rfl⟩

/-- Claim C5 (amended): a `noteOff` with the hold pedal down PUSHES every
matching non-releasing voice onto `sustainedVoices` while the voice also
REMAINS in `voices` (the source does not remove it); when the sustain pedal
value later drops below 64, the pedal is unlatched, every sustained voice
(still aliased in `voices`, modelled by value identity) has its
`releaseStartTime` set by `releaseVoice`, the sustained list becomes empty,
and all channel voices get their modulators recomputed against the updated
controller table. -/
theorem noteOff_hold_pedal_sustain (env : SynthEnv) (ch1 ch2 : WorkletProcessorChannel)
    (note val : ℤ) (hhold : ch1.holdPedal = true) (hval : val < 64) :
    ((noteOffCase env ch1 note).voices = ch1.voices ∧
     (noteOffCase env ch1 note).sustainedVoices =
       ch1.sustainedVoices ++ ch1.voices.filter fun v => v.midiNote == note && !v.isInRelease) ∧
    ((ccChangeCase env ch2 sustainPedal val).holdPedal = false ∧
     (ccChangeCase env ch2 sustainPedal val).sustainedVoices = [] ∧
     (ccChangeCase env ch2 sustainPedal val).midiControllers =
       ch2.midiControllers.set sustainPedal (toInt16 val) ∧
     (ccChangeCase env ch2 sustainPedal val).voices =
       ch2.voices.map fun v => computeModulators
         (if ch2.sustainedVoices.contains v then releaseVoice env v else v)
         (ch2.midiControllers.set sustainPedal (toInt16 val))) ∧
    (∀ v : WorkletVoice, (releaseVoice env v).releaseStartTime =
      some (if env.currentTime - v.startTime < MIN_NOTE_LENGTH then
        v.startTime + MIN_NOTE_LENGTH else env.currentTime)) := by
  have hge : ¬ (val ≥ 64) := not_le.mpr hval
  refine ⟨⟨?_, ?_⟩, ⟨?_, ?_, ?_, ?_⟩, fun v => rfl⟩
  · simp only [noteOffCase, hhold, if_true]
  · simp only [noteOffCase, hhold, if_true]
  · simp only [ccChangeCase, beq_self_eq_true, if_true, if_neg hge]
  · simp only [ccChangeCase, beq_self_eq_true, if_true, if_neg hge]
  · simp only [ccChangeCase, beq_self_eq_true, if_true, if_neg hge]
  · simp only [ccChangeCase, beq_self_eq_true, if_true, if_neg hge, List.map_map]
    rfl

/-- Witness for `noteOff_hold_pedal_sustain` at a concrete input. -/
theorem noteOff_hold_pedal_sustain_witness :
    (({ testChannel [testVoice 0 100 60] with holdPedal := true }
        : WorkletProcessorChannel).holdPedal = true ∧ (0 : ℤ) < 64) ∧
    ((noteOffCase envTest { testChannel [testVoice 0 100 60] with holdPedal := true } 60).voices =
        ({ testChannel [testVoice 0 100 60] with holdPedal := true }
          : WorkletProcessorChannel).voices ∧
      (noteOffCase envTest { testChannel [testVoice 0 100 60] with holdPedal := true }
          60).sustainedVoices =
        ({ testChannel [testVoice 0 100 60] with holdPedal := true }
          : WorkletProcessorChannel).sustainedVoices ++
          ({ testChannel [testVoice 0 100 60] with holdPedal := true }
            : WorkletProcessorChannel).voices.filter
            fun v => v.midiNote == 60 && !v.isInRelease) ∧
    ((ccChangeCase envTest
        { testChannel [testVoice 0 100 60] with sustainedVoices := [testVoice 0 100 60] }
        sustainPedal 0).holdPedal = false ∧
      (ccChangeCase envTest
        { testChannel [testVoice 0 100 60] with sustainedVoices := [testVoice 0 100 60] }
        sustainPedal 0).sustainedVoices = [] ∧
      (ccChangeCase envTest
        { testChannel [testVoice 0 100 60] with sustainedVoices := [testVoice 0 100 60] }
        sustainPedal 0).midiControllers =
        ({ testChannel [testVoice 0 100 60] with sustainedVoices := [testVoice 0 100 60] }
          : WorkletProcessorChannel).midiControllers.set sustainPedal (toInt16 0) ∧
      (ccChangeCase envTest
        { testChannel [testVoice 0 100 60] with sustainedVoices := [testVoice 0 100 60] }
        sustainPedal 0).voices =
        ({ testChannel [testVoice 0 100 60] with sustainedVoices := [testVoice 0 100 60] }
          : WorkletProcessorChannel).voices.map fun v => computeModulators
          (if ({ testChannel [testVoice 0 100 60] with sustainedVoices := [testVoice 0 100 60] }
              : WorkletProcessorChannel).sustainedVoices.contains v
            then releaseVoice envTest v else v)
          (({ testChannel [testVoice 0 100 60] with sustainedVoices := [testVoice 0 100 60] }
            : WorkletProcessorChannel).midiControllers.set sustainPedal (toInt16 0))) ∧
    (∀ v : WorkletVoice, (releaseVoice envTest v).releaseStartTime =
      some (if envTest.currentTime - v.startTime < MIN_NOTE_LENGTH then
        v.startTime + MIN_NOTE_LENGTH else envTest.currentTime)) := by
  refine ⟨⟨rfl, by decide⟩, ?_⟩
  exact noteOff_hold_pedal_sustain envTest
    { testChannel [testVoice 0 100 60] with holdPedal := true }
    { testChannel [testVoice 0 100 60] with sustainedVoices := [testVoice 0 100 60] }
    60 0 rfl (by decide)

/-- Counterexample to claim C5 as stated: with the hold pedal down, a
note-off for the matching voice leaves the voice IN `voices` (it is pushed
onto `sustainedVoices` as well, not moved), contradicting "afterwards it no
longer appears in voices". -/
theorem noteOff_hold_keeps_voice_counterexample :
    (noteOffCase envTest { testChannel [testVoice 0 100 60] with holdPedal := true } 60).voices =
      [testVoice 0 100 60] ∧
    (noteOffCase envTest { testChannel [testVoice 0 100 60] with holdPedal := true }
        60).sustainedVoices = [testVoice 0 100 60] ∧
    testVoice 0 100 60 ∈
      (noteOffCase envTest { testChannel [testVoice 0 100 60] with holdPedal := true }
        60).voices := by
  refine ⟨rfl, rfl, ?_⟩
  exact List.mem_singleton.mpr rfl

/-- Claim C3 (amended): after a `process` block, channels that were skipped
(empty or muted) are untouched, every rendered channel keeps exactly its
not-finished voices; the tracked `totalVoicesAmount` equals the sum of the
PRE-compaction voice counts of the rendered (non-skipped) channels only —
skipped channels contribute nothing even if they hold voices, and voices
that finish during the block are still counted; a voice-count update is
posted precisely when this sum differs from the previous tracked value. -/
theorem process_voice_accounting (env : SynthEnv) (store : SampleStore)
    (tail : WorkletVoice → SynthesisArgs → WorkletVoice) (st : WorkletProcessorState) :
    (process env store tail st).workletProcessorChannels =
      (st.workletProcessorChannels.map fun c =>
        if c.voices.length < 1 || c.isMuted then c
        else { c with voices :=
          (c.voices.map (renderVoiceFull env store c tail)).filter fun v => !v.finished }) ∧
    (process env store tail st).totalVoicesAmount =
      (((st.workletProcessorChannels.map fun c =>
        if c.voices.length < 1 || c.isMuted then 0 else c.voices.length).sum : ℕ) : ℤ) ∧
    (process env store tail st).outbox =
      (if (((st.workletProcessorChannels.map fun c =>
            if c.voices.length < 1 || c.isMuted then 0 else c.voices.length).sum : ℕ) : ℤ) ≠
          st.totalVoicesAmount then
        st.outbox ++ [(process env store tail st).workletProcessorChannels.map
          fun c => c.voices.length]
      else st.outbox) := by
  have hfst : ∀ c : WorkletProcessorChannel,
      Prod.fst (if c.voices.length < 1 || c.isMuted then (c, 0)
        else ({ c with voices :=
          (c.voices.map (renderVoiceFull env store c tail)).filter fun v => !v.finished },
          c.voices.length)) =
      (if c.voices.length < 1 || c.isMuted then c
        else { c with voices :=
          (c.voices.map (renderVoiceFull env store c tail)).filter fun v => !v.finished }) := by
    intro c
    split <;> rfl
  have hsnd : ∀ c : WorkletProcessorChannel,
      Prod.snd (if c.voices.length < 1 || c.isMuted then (c, 0)
        else ({ c with voices :=
          (c.voices.map (renderVoiceFull env store c tail)).filter fun v => !v.finished },
          c.voices.length)) =
      (if c.voices.length < 1 || c.isMuted then 0 else c.voices.length) := by
    intro c
    split <;> rfl
  simp only [process, List.map_map, Function.comp_def, hfst, hsnd]
  split
  · exact ⟨rfl, rfl, rfl⟩
  · rename_i hne
    exact ⟨rfl, (not_ne_iff.mp hne).symm, rfl⟩

/-- Counterexample to claim C3 as stated: one unmuted channel holding a
single already-finished voice, tracked total 1.  The block drops the voice
(the channel ends empty) but counts it pre-compaction, so the tracked total
stays 1 while the sum of `channel.voices.length` is 0, and NO update event
is emitted although the live voice count changed from 1 to 0. -/
theorem process_voice_count_counterexample :
    (process envTest [] (fun v _ => v)
        { workletProcessorChannels := [testChannel [{ testVoice 0 100 60 with finished := true }]]
          totalVoicesAmount := 1
          outbox := [] }).totalVoicesAmount = 1 ∧
    ((process envTest [] (fun v _ => v)
        { workletProcessorChannels := [testChannel [{ testVoice 0 100 60 with finished := true }]]
          totalVoicesAmount := 1
          outbox := [] }).workletProcessorChannels.map fun c => c.voices.length).sum = 0 ∧
    (process envTest [] (fun v _ => v)
        { workletProcessorChannels := [testChannel [{ testVoice 0 100 60 with finished := true }]]
          totalVoicesAmount := 1
          outbox := [] }).outbox = [] ∧
    (1 : ℤ) ≠ 0 := by
  exact ⟨rfl, rfl, rfl, by decide⟩

theorem modifyAt_length (l : List α) (i : ℕ) (f : α → α) :
    (modifyAt l i f).length = l.length := by
  induction l generalizing i with
  | nil => rfl
  | cons x xs ih =>
    cases i with
    | zero => rfl
    | succ n => simp [modifyAt, ih]

theorem modifyAt_getD (l : List α) (i : ℕ) (f : α → α) (d : α) (h : i < l.length) :
    (modifyAt l i f).getD i d = f (l.getD i d) := by
  induction l generalizing i with
  | nil => simp at h
  | cons x xs ih =>
    cases i with
    | zero => rfl
    | succ n =>
      simp only [modifyAt, List.getD_cons_succ]
      exact ih n (by simpa using h)

/-- Claim C7 (confirmed): a `noteOn` carrying a voice with nonzero
`exclusiveClass` transforms, before the new voice is appended, every live
voice of the channel with the same class by `exclusiveTransform` — its raw
`releaseVolEnv` generator is forced to `-7200`, it is released immediately
(`releaseStartTime` is set by `releaseVoice`), and its `modulatedGenerators`
are recomputed via `computeModulators` — while voices with a different or
zero class are left untouched (the `else` branch of the map); the new voice
is appended after the sweep.  (Stated below the voice cap, where no voice
stealing interferes.) -/
theorem noteOn_exclusiveClass_cutoff (env : SynthEnv) (st : WorkletProcessorState)
    (channel : ℕ) (w : WorkletVoice)
    (hch : channel < st.workletProcessorChannels.length)
    (hex : w.generators.getD generatorTypes.exclusiveClass 0 ≠ 0)
    (hcap : st.totalVoicesAmount + 1 ≤ VOICE_CAP) :
    ((noteOnCase env st channel [w]).workletProcessorChannels.getD channel
        emptyWorkletProcessorChannel).voices =
      ((st.workletProcessorChannels.getD channel emptyWorkletProcessorChannel).voices.map
        fun v => if v.generators.getD generatorTypes.exclusiveClass 0 =
            w.generators.getD generatorTypes.exclusiveClass 0 then
          exclusiveTransform env
            (st.workletProcessorChannels.getD channel
              emptyWorkletProcessorChannel).midiControllers v
        else v) ++
      [{ (computeModulators w
          (st.workletProcessorChannels.getD channel
            emptyWorkletProcessorChannel).midiControllers)
        with currentAttenuationDb := 100 }] ∧
    (∀ (ctrl : List ℤ) (v : WorkletVoice),
      generatorTypes.releaseVolEnv < v.generators.length →
      (exclusiveTransform env ctrl v).generators.getD generatorTypes.releaseVolEnv 0 = -7200) ∧
    (∀ (ctrl : List ℤ) (v : WorkletVoice),
      (exclusiveTransform env ctrl v).releaseStartTime =
        some (if env.currentTime - v.startTime < MIN_NOTE_LENGTH then
          v.startTime + MIN_NOTE_LENGTH else env.currentTime)) ∧
    (∀ (ctrl : List ℤ) (v : WorkletVoice),
      (exclusiveTransform env ctrl v).modulatedGenerators =
        (computeModulators { (releaseVoice env v) with
          generators := (releaseVoice env v).generators.set generatorTypes.releaseVolEnv (-7200) }
          ctrl).modulatedGenerators) := by
  refine ⟨?_, ?_, fun ctrl v => rfl, fun ctrl v => rfl⟩
  · have hcap2 : ¬ (st.totalVoicesAmount + (([w] : List WorkletVoice).length : ℤ) >
        VOICE_CAP) := by
      simp only [List.length_cons, List.length_nil]
      push_cast
      omega
    simp only [noteOnCase, List.foldl_cons, List.foldl_nil, List.map_cons, List.map_nil,
      if_neg hcap2, updateVoicesAmount]
    rw [modifyAt_getD _ _ _ _ hch]
    simp only [exclusiveSweep, if_pos hex]
  · intro ctrl v h
    show ((releaseVoice env v).generators.set generatorTypes.releaseVolEnv
        (-7200)).getD generatorTypes.releaseVolEnv 0 = -7200
    have h2 : generatorTypes.releaseVolEnv <
        ((releaseVoice env v).generators.set generatorTypes.releaseVolEnv (-7200)).length := by
      simpa [List.length_set, releaseVoice] using h
    rw [List.getD_eq_getElem _ _ h2]
    exact List.getElem_set_self h2

/-- Witness for `noteOn_exclusiveClass_cutoff` at a concrete input. -/
theorem noteOn_exclusiveClass_cutoff_witness :
    ((0 : ℕ) < exState.workletProcessorChannels.length ∧
      exVoiceNew.generators.getD generatorTypes.exclusiveClass 0 ≠ 0 ∧
      exState.totalVoicesAmount + 1 ≤ VOICE_CAP) ∧
    ((noteOnCase envTest exState 0 [exVoiceNew]).workletProcessorChannels.getD 0
        emptyWorkletProcessorChannel).voices =
      ((exState.workletProcessorChannels.getD 0 emptyWorkletProcessorChannel).voices.map
        fun v => if v.generators.getD generatorTypes.exclusiveClass 0 =
            exVoiceNew.generators.getD generatorTypes.exclusiveClass 0 then
          exclusiveTransform envTest
            (exState.workletProcessorChannels.getD 0
              emptyWorkletProcessorChannel).midiControllers v
        else v) ++
      [{ (computeModulators exVoiceNew
          (exState.workletProcessorChannels.getD 0
            emptyWorkletProcessorChannel).midiControllers)
        with currentAttenuationDb := 100 }] := by
  refine ⟨⟨by decide, by decide, by decide⟩, ?_⟩
  exact (noteOn_exclusiveClass_cutoff envTest exState 0 exVoiceNew
    (by decide) (by decide) (by decide)).1
theorem modifyAt_remove_eq_map (chs : List WorkletProcessorChannel) (i : ℕ) (v : WorkletVoice)
    (hi : i < chs.length)
    (hv : v ∈ (chs.getD i emptyWorkletProcessorChannel).voices)
    (hnd : ((chs.map fun c => c.voices).flatten).Nodup) :
    modifyAt chs i (fun c => { c with voices := jsSpliceIndexOfRemove c.voices v }) =
      chs.map fun c => { c with voices := c.voices.filter fun w => w != v } := by
  induction chs generalizing i with
  | nil => simp at hi
  | cons c rest ih =>
    simp only [List.map_cons, List.flatten_cons, List.nodup_append] at hnd
    obtain ⟨hnc, hnrest, hdisj⟩ := hnd
    cases i with
    | zero =>
      rw [List.getD_cons_zero] at hv
      have hrm : jsSpliceIndexOfRemove c.voices v = c.voices.filter fun w => w != v := by
        rw [jsSpliceIndexOfRemove, if_pos hv]
        exact hnc.erase_eq_filter v
      have htail : rest.map (fun c' => { c' with
          voices := c'.voices.filter fun w => w != v }) = rest := by
        have hcongr : ∀ c' ∈ rest, ({ c' with
            voices := c'.voices.filter fun w => w != v } : WorkletProcessorChannel) = c' := by
          intro c' hc'
          have hfil : c'.voices.filter (fun w => w != v) = c'.voices := by
            rw [List.filter_eq_self]
            intro w hw
            have hwrest : w ∈ (rest.map fun cc => cc.voices).flatten :=
              List.mem_flatten.mpr ⟨c'.voices, List.mem_map_of_mem _ hc', hw⟩
            have hne : w ≠ v := by
              intro he
              subst he
              exact (hdisj hv) hwrest
            simpa using hne
          rw [hfil]
        calc rest.map (fun c' => { c' with voices := c'.voices.filter fun w => w != v })
            = rest.map id := List.map_congr_left fun a ha => hcongr a ha
          _ = rest := List.map_id rest
      show ({ c with voices := jsSpliceIndexOfRemove c.voices v } :: rest) = _
      rw [List.map_cons, hrm, htail]
    | succ n =>
      rw [List.getD_cons_succ] at hv
      have hn : n < rest.length := by simpa using hi
      have hvrest : v ∈ (rest.map fun cc => cc.voices).flatten := by
        refine List.mem_flatten.mpr ⟨(rest.getD n emptyWorkletProcessorChannel).voices, ?_, hv⟩
        rw [List.getD_eq_getElem _ _ hn]
        exact List.mem_map_of_mem _ (List.getElem_mem hn)
      have hhead : ({ c with voices := c.voices.filter fun w => w != v }
          : WorkletProcessorChannel) = c := by
        have hfil : c.voices.filter (fun w => w != v) = c.voices := by
          rw [List.filter_eq_self]
          intro w hw
          have hne : w ≠ v := by
            intro he
            subst he
            exact (hdisj hw) hvrest
          simpa using hne
        rw [hfil]
      show (c :: modifyAt rest n (fun cc => { cc with
          voices := jsSpliceIndexOfRemove cc.voices v })) = _
      rw [List.map_cons, hhead, ih n hn hv hnrest]

theorem getD_map_channel (g : WorkletProcessorChannel → WorkletProcessorChannel)
    (l : List WorkletProcessorChannel) (i : ℕ) (h : i < l.length) :
    (l.map g).getD i emptyWorkletProcessorChannel =
      g (l.getD i emptyWorkletProcessorChannel) := by
  rw [List.getD_eq_getElem _ _ (by simpa using h), List.getD_eq_getElem _ _ h,
    List.getElem_map]

theorem foldl_kill_eq_filter :
    ∀ (ks : List WorkletVoice) (chs : List WorkletProcessorChannel),
      ((chs.map fun c => c.voices).flatten).Nodup →
      ks.Nodup →
      (∀ v ∈ ks, v.channelNumber < chs.length ∧
        v ∈ (chs.getD v.channelNumber emptyWorkletProcessorChannel).voices) →
      ks.foldl (fun cs v => modifyAt cs v.channelNumber
          fun c => { c with voices := jsSpliceIndexOfRemove c.voices v }) chs =
        chs.map fun c => { c with voices := c.voices.filter fun w => !ks.contains w } := by
  intro ks
  induction ks with
  | nil =>
    intro chs hnd hks hmem
    simp only [List.foldl_nil]
    have hid : ∀ c ∈ chs, ({ c with
        voices := c.voices.filter fun w => !(([] : List WorkletVoice).contains w) }
          : WorkletProcessorChannel) = c := by
      intro c hc
      have hfil : c.voices.filter (fun w => !(([] : List WorkletVoice).contains w)) =
          c.voices := by
        rw [List.filter_eq_self]
        intro a ha
        rfl
      rw [hfil]
    exact ((List.map_congr_left hid).trans (List.map_id chs)).symm
  | cons v ks ih =>
    intro chs hnd hks hmem
    rw [List.foldl_cons]
    obtain ⟨hi, hv⟩ := hmem v (List.mem_cons_self _ _)
    rw [modifyAt_remove_eq_map chs v.channelNumber v hi hv hnd]
    have hvnotin : v ∉ ks := (List.nodup_cons.mp hks).1
    have hnd' : (((chs.map fun c => { c with
        voices := c.voices.filter fun w => w != v }).map fun c => c.voices).flatten).Nodup := by
      have hvoices : (chs.map fun c => { c with
          voices := c.voices.filter fun w => w != v }).map (fun c => c.voices) =
          (chs.map fun c => c.voices).map (List.filter fun w => w != v) := by
        simp only [List.map_map]
        rfl
      rw [hvoices, ← List.filter_flatten]
      exact hnd.filter _
    have hmem' : ∀ w ∈ ks, w.channelNumber < (chs.map fun c => { c with
        voices := c.voices.filter fun x => x != v }).length ∧
        w ∈ ((chs.map fun c => { c with
          voices := c.voices.filter fun x => x != v }).getD w.channelNumber
            emptyWorkletProcessorChannel).voices := by
      intro w hw
      obtain ⟨hwl, hwv⟩ := hmem w (List.mem_cons_of_mem _ hw)
      refine ⟨by simpa using hwl, ?_⟩
      rw [getD_map_channel _ _ _ hwl]
      refine List.mem_filter.mpr ⟨hwv, ?_⟩
      have hne : w ≠ v := fun he => hvnotin (he ▸ hw)
      simpa using hne
    rw [ih _ hnd' (List.Nodup.of_cons hks) hmem']
    rw [List.map_map]
    refine List.map_congr_left ?_
    intro c hc
    have hpred : (fun (w : WorkletVoice) => (!ks.contains w && (w != v))) =
        fun w => !((v :: ks).contains w) := by
      funext w
      by_cases h1 : w = v
      · subst h1
        simp [List.contains_cons]
      · by_cases h2 : w ∈ ks <;>
          simp [List.contains_cons, bne, h1, h2]
    simp only [Function.comp_def, List.filter_filter, hpred]

/-- Claim C1 (confirmed): a `killNotes(n)` event removes exactly
`min(n, live count)` voices from the union of all channels' voice lists —
namely the first `min(n, live)` entries of that union stably sorted ascending
by velocity (the lowest-velocity voices) — each removed from its own
channel's list, while every other voice remains in place (each channel's new
list is its old list filtered by survival); the tracked total drops by the
same amount and a per-channel count update is posted.  Hypotheses: the live
voices are pairwise distinct (JS object identity) and each voice's
`channelNumber` indexes the channel that holds it. -/
theorem killNotes_steals_lowest_velocity (st : WorkletProcessorState) (n : ℤ)
    (hnd : (liveVoices st).Nodup)
    (hch : ∀ v ∈ liveVoices st,
      v.channelNumber < st.workletProcessorChannels.length ∧
      v ∈ (st.workletProcessorChannels.getD v.channelNumber
        emptyWorkletProcessorChannel).voices) :
    ((liveVoices st).mergeSort velocityLe).Perm (liveVoices st) ∧
    List.Pairwise (fun a b => a.velocity ≤ b.velocity)
      ((liveVoices st).mergeSort velocityLe) ∧
    (((liveVoices st).mergeSort velocityLe).take
        (min n.toNat (liveVoices st).length)).length =
      min n.toNat (liveVoices st).length ∧
    (killNotesCase st n).workletProcessorChannels =
      (st.workletProcessorChannels.map fun c => { c with voices := c.voices.filter fun w =>
        !(((liveVoices st).mergeSort velocityLe).take
            (min n.toNat (liveVoices st).length)).contains w }) ∧
    (liveVoices (killNotesCase st n)).length =
      (liveVoices st).length - min n.toNat (liveVoices st).length ∧
    (killNotesCase st n).totalVoicesAmount =
      st.totalVoicesAmount - min n.toNat (liveVoices st).length ∧
    (killNotesCase st n).outbox = st.outbox ++
      [(killNotesCase st n).workletProcessorChannels.map fun c => c.voices.length] := by
  have hperm : ((liveVoices st).mergeSort velocityLe).Perm (liveVoices st) :=
    List.mergeSort_perm _ _
  have hlen : ((liveVoices st).mergeSort velocityLe).length = (liveVoices st).length :=
    hperm.length_eq
  have hkmin : min n.toNat ((liveVoices st).mergeSort velocityLe).length =
      min n.toNat (liveVoices st).length := by rw [hlen]
  have hkle : min n.toNat (liveVoices st).length ≤
      ((liveVoices st).mergeSort velocityLe).length := by
    rw [hlen]
    exact min_le_right _ _
  have hsortednodup : ((liveVoices st).mergeSort velocityLe).Nodup :=
    hperm.nodup_iff.mpr hnd
  have hkillednodup : (((liveVoices st).mergeSort velocityLe).take
      (min n.toNat (liveVoices st).length)).Nodup :=
    (List.take_sublist _ _).nodup hsortednodup
  have hkmem : ∀ v ∈ ((liveVoices st).mergeSort velocityLe).take
      (min n.toNat (liveVoices st).length),
      v.channelNumber < st.workletProcessorChannels.length ∧
      v ∈ (st.workletProcessorChannels.getD v.channelNumber
        emptyWorkletProcessorChannel).voices := by
    intro v hv
    exact hch v (hperm.mem_iff.mp ((List.take_sublist _ _).subset hv))
  have hfold := foldl_kill_eq_filter
    (((liveVoices st).mergeSort velocityLe).take (min n.toNat (liveVoices st).length))
    st.workletProcessorChannels hnd hkillednodup hkmem
  have hkmin2 := hkmin
  simp only [liveVoices] at hkmin2
  have hchannels : (killNotesCase st n).workletProcessorChannels =
      (st.workletProcessorChannels.map fun c => { c with voices := c.voices.filter fun w =>
        !(((liveVoices st).mergeSort velocityLe).take
            (min n.toNat (liveVoices st).length)).contains w }) := by
    simp only [killNotesCase, voiceKilling, updateVoicesAmount, liveVoices] at hfold ⊢
    rw [hkmin2]
    exact hfold
  refine ⟨hperm, ?_, ?_, hchannels, ?_, ?_, ?_⟩
  · have htrans : ∀ a b c : WorkletVoice, velocityLe a b = true → velocityLe b c = true →
        velocityLe a c = true := by
      intro a b c hab hbc
      simp only [velocityLe, decide_eq_true_eq] at hab hbc ⊢
      omega
    have htotal : ∀ a b : WorkletVoice, (velocityLe a b || velocityLe b a) = true := by
      intro a b
      simp only [velocityLe, Bool.or_eq_true, decide_eq_true_eq]
      exact le_total _ _
    have hp := List.sorted_mergeSort htrans htotal (liveVoices st)
    exact hp.imp fun h => by simpa [velocityLe] using h
  · rw [List.length_take]
    exact min_eq_left hkle
  · -- length of the remaining flattened voices
    have hflat : liveVoices (killNotesCase st n) =
        (liveVoices st).filter fun w =>
          !(((liveVoices st).mergeSort velocityLe).take
              (min n.toNat (liveVoices st).length)).contains w := by
      rw [liveVoices, hchannels]
      rw [List.map_map]
      have : (fun c : WorkletProcessorChannel => c.voices) ∘
          (fun c : WorkletProcessorChannel => { c with voices := c.voices.filter fun w =>
            !(((liveVoices st).mergeSort velocityLe).take
                (min n.toNat (liveVoices st).length)).contains w }) =
          fun c : WorkletProcessorChannel => c.voices.filter fun w =>
            !(((liveVoices st).mergeSort velocityLe).take
                (min n.toNat (liveVoices st).length)).contains w := rfl
      rw [this]
      have hmapfil : st.workletProcessorChannels.map (fun c => c.voices.filter fun w =>
          !(((liveVoices st).mergeSort velocityLe).take
              (min n.toNat (liveVoices st).length)).contains w) =
          (st.workletProcessorChannels.map fun c => c.voices).map
            (List.filter fun w => !(((liveVoices st).mergeSort velocityLe).take
              (min n.toNat (liveVoices st).length)).contains w) := by
        rw [List.map_map]
        rfl
      rw [hmapfil, ← List.filter_flatten]
      rfl
    rw [hflat]
    -- count: filter removes exactly the killed ones
    have hsplit : ((liveVoices st).mergeSort velocityLe).take
          (min n.toNat (liveVoices st).length) ++
        ((liveVoices st).mergeSort velocityLe).drop
          (min n.toNat (liveVoices st).length) =
        (liveVoices st).mergeSort velocityLe := List.take_append_drop _ _
    have hpermfil : ((liveVoices st).filter fun w =>
        !(((liveVoices st).mergeSort velocityLe).take
            (min n.toNat (liveVoices st).length)).contains w).Perm
        (((liveVoices st).mergeSort velocityLe).filter fun w =>
        !(((liveVoices st).mergeSort velocityLe).take
            (min n.toNat (liveVoices st).length)).contains w) :=
      (hperm.filter _).symm
    rw [hpermfil.length_eq]
    have hsplitfil : (((liveVoices st).mergeSort velocityLe).filter fun w =>
        !(((liveVoices st).mergeSort velocityLe).take
            (min n.toNat (liveVoices st).length)).contains w) =
        ((((liveVoices st).mergeSort velocityLe).take
            (min n.toNat (liveVoices st).length)) ++
          (((liveVoices st).mergeSort velocityLe).drop
            (min n.toNat (liveVoices st).length))).filter fun w =>
          !(((liveVoices st).mergeSort velocityLe).take
              (min n.toNat (liveVoices st).length)).contains w := by
      rw [hsplit]
    rw [hsplitfil, List.filter_append]
    have hfilkilled : (((liveVoices st).mergeSort velocityLe).take
        (min n.toNat (liveVoices st).length)).filter (fun w =>
          !(((liveVoices st).mergeSort velocityLe).take
            (min n.toNat (liveVoices st).length)).contains w) = [] := by
      rw [List.filter_eq_nil_iff]
      intro a ha
      simp [ha]
    have hnodupsplit : ((((liveVoices st).mergeSort velocityLe).take
          (min n.toNat (liveVoices st).length)) ++
        (((liveVoices st).mergeSort velocityLe).drop
          (min n.toNat (liveVoices st).length))).Nodup := by
      rw [hsplit]
      exact hsortednodup
    have hdisj := (List.nodup_append.mp hnodupsplit).2.2
    have hfildrop : (((liveVoices st).mergeSort velocityLe).drop
        (min n.toNat (liveVoices st).length)).filter (fun w =>
          !(((liveVoices st).mergeSort velocityLe).take
            (min n.toNat (liveVoices st).length)).contains w) =
        ((liveVoices st).mergeSort velocityLe).drop
          (min n.toNat (liveVoices st).length) := by
      rw [List.filter_eq_self]
      intro a ha
      have : a ∉ ((liveVoices st).mergeSort velocityLe).take
          (min n.toNat (liveVoices st).length) := fun hmem => (hdisj hmem) ha
      simpa using this
    rw [hfilkilled, hfildrop, List.nil_append, List.length_drop, hlen]
  · simp only [killNotesCase, voiceKilling, updateVoicesAmount, liveVoices]
    rw [hkmin2]
  · simp only [killNotesCase, voiceKilling, updateVoicesAmount]

/-- Witness for `killNotes_steals_lowest_velocity` at a concrete input:
killing 2 of the 3 live voices (velocities 10, 5 | 7). -/
theorem killNotes_steals_lowest_velocity_witness :
    ((liveVoices killState).Nodup ∧
      (∀ v ∈ liveVoices killState,
        v.channelNumber < killState.workletProcessorChannels.length ∧
        v ∈ (killState.workletProcessorChannels.getD v.channelNumber
          emptyWorkletProcessorChannel).voices)) ∧
    (((liveVoices killState).mergeSort velocityLe).Perm (liveVoices killState) ∧
    List.Pairwise (fun a b => a.velocity ≤ b.velocity)
      ((liveVoices killState).mergeSort velocityLe) ∧
    (((liveVoices killState).mergeSort velocityLe).take
        (min (2 : ℤ).toNat (liveVoices killState).length)).length =
      min (2 : ℤ).toNat (liveVoices killState).length ∧
    (killNotesCase killState 2).workletProcessorChannels =
      (killState.workletProcessorChannels.map fun c => { c with voices := c.voices.filter fun w =>
        !(((liveVoices killState).mergeSort velocityLe).take
            (min (2 : ℤ).toNat (liveVoices killState).length)).contains w }) ∧
    (liveVoices (killNotesCase killState 2)).length =
      (liveVoices killState).length - min (2 : ℤ).toNat (liveVoices killState).length ∧
    (killNotesCase killState 2).totalVoicesAmount =
      killState.totalVoicesAmount - min (2 : ℤ).toNat (liveVoices killState).length ∧
    (killNotesCase killState 2).outbox = killState.outbox ++
      [(killNotesCase killState 2).workletProcessorChannels.map fun c => c.voices.length]) := by
  refine ⟨⟨by decide, by decide⟩, ?_⟩
  exact killNotes_steals_lowest_velocity killState 2 (by decide) (by decide)
